import Mathlib

/-!
# Verification of the Anthropic↔OpenAI API converter

Shallow embedding of the core of the `claude-code-api-converter` repository:
the request/response translators (`src/app/converter.py`,
`src/converter_class.py`), the tool-text extractor, the SSE stream
generator (`src/app/fixed_sse_generator.py`), the upstream retry logic and
request deduplicator (`src/api_server.py`), the error-status mapping of the
HTTP handlers (`src/api_server.py`, `src/app/server.py`) and the SSE pacing
layers (`src/app/sse_optimizer.py`, `src/app/simple_sse_optimizer.py`).

Python values (parsed JSON bodies) are modelled by the inductive type
`Json`; operations that can raise in Python return `Except PyExc _`.
Nondeterministic identifier generation (`uuid.uuid4().hex`) is modelled by
threading an explicit stream of fresh hex strings.
-/

set_option maxRecDepth 10000
set_option synthInstance.maxHeartbeats 1000000
set_option linter.unusedVariables false

namespace Spec2Proof

/-- Character strings, modelled as lists of characters (Python `str`). -/
abbrev Str := List Char

/-- ASCII lower-casing of one character (Python `str.lower` restricted to
ASCII, which is all the source ever compares). -/
def lowerChar (c : Char) : Char :=
  if 'A' ≤ c ∧ c ≤ 'Z' then Char.ofNat (c.toNat + 32) else c

/-- Python `s.lower()` (ASCII fragment). -/
def strLower (s : Str) : Str := s.map lowerChar

/-- Python whitespace test used by `str.strip` / JSON lexing. -/
def isWs (c : Char) : Bool := c = ' ' ∨ c = '\t' ∨ c = '\n' ∨ c = '\r'

/-- Python `s.strip()`. -/
def strip (s : Str) : Str :=
  (s.dropWhile isWs).reverse.dropWhile isWs |>.reverse

/-- Python `s.startswith(p)`. -/
def startsWith (p s : Str) : Bool := p.isPrefixOf s

/-- First index at which `pat` occurs in `s`, if any. -/
def findSub (pat : Str) : Str → Option Nat
  | [] => if pat = [] then some 0 else none
  | c :: rest =>
    if pat.isPrefixOf (c :: rest) then some 0
    else (findSub pat rest).map (· + 1)

/-- Python `p in s` (substring containment). -/
def infixOf (p s : Str) : Bool := (findSub p s).isSome

/-- Fuel-driven body of `removeAll` (each step consumes at least one
character, so `s.length` fuel suffices). -/
def removeAllF (pat : Str) : Nat → Str → Str
  | 0, s => s
  | _ + 1, [] => []
  | fuel + 1, c :: rest =>
    if pat ≠ [] ∧ pat.isPrefixOf (c :: rest) then
      removeAllF pat fuel (List.drop pat.length (c :: rest))
    else
      c :: removeAllF pat fuel rest

/-- Python `s.replace(pat, "")` for a non-empty pattern: remove every
(left-to-right, non-overlapping) occurrence. -/
def removeAll (pat s : Str) : Str := removeAllF pat s.length s

/-- Python `s.split('.')[-1]`: the characters after the last dot. -/
def lastComponent (s : Str) : Str := (s.reverse.takeWhile (· ≠ '.')).reverse

/-- Decimal digits of a natural number (for serialised indices). -/
def natStr (n : Nat) : Str := (toString n).data

/-! ## JSON / Python value model -/

/-- JSON values as produced by `json.loads` (= the Python dicts/lists the
source manipulates).  Numbers keep their source lexeme; objects are
insertion-ordered association lists (Python 3.7+ dict semantics). -/
inductive Json where
  | null
  | bool (b : Bool)
  | num (lexeme : Str)
  | str (s : Str)
  | arr (elems : List Json)
  | obj (kvs : List (Str × Json))

/-- Structural (Python `==` on parsed JSON) equality. -/
def jsonBeq : Json → Json → Bool
  | .null, .null => true
  | .bool a, .bool b => a = b
  | .num a, .num b => a = b
  | .str a, .str b => a = b
  | .arr a, .arr b => jsonBeqList a b
  | .obj a, .obj b => jsonBeqKvs a b
  | _, _ => false
where
  jsonBeqList : List Json → List Json → Bool
    | [], [] => true
    | x :: xs, y :: ys => jsonBeq x y && jsonBeqList xs ys
    | _, _ => false
  jsonBeqKvs : List (Str × Json) → List (Str × Json) → Bool
    | [], [] => true
    | (k1, v1) :: xs, (k2, v2) :: ys => k1 = k2 && jsonBeq v1 v2 && jsonBeqKvs xs ys
    | _, _ => false

/-- A number lexeme is "zero" when no significand digit is non-zero
(`0`, `-0.00`, `0e5`, …). -/
def numLexIsZero (l : Str) : Bool :=
  (l.takeWhile (fun c => c ≠ 'e' ∧ c ≠ 'E')).all (fun c => ¬(c.isDigit ∧ c ≠ '0'))

/-- Python truthiness of a parsed-JSON value. -/
def truthy : Json → Bool
  | .null => false
  | .bool b => b
  | .num l => ¬ numLexIsZero l
  | .str s => ¬ s.isEmpty
  | .arr xs => ¬ xs.isEmpty
  | .obj kvs => ¬ kvs.isEmpty

/-- Lookup in an insertion-ordered dict. -/
def objLookup (kvs : List (Str × Json)) (k : Str) : Option Json :=
  match kvs with
  | [] => none
  | (k', v) :: rest => if k' = k then some v else objLookup rest k

/-- Python `d[k] = v`: replace in place if present, else append. -/
def objInsert (kvs : List (Str × Json)) (k : Str) (v : Json) : List (Str × Json) :=
  match kvs with
  | [] => [(k, v)]
  | (k', v') :: rest =>
    if k' = k then (k', v) :: rest else (k', v') :: objInsert rest k v

/-- Exceptions raised by the modelled Python operations. -/
inductive PyExc where
  | typeError
  | attributeError
  | keyError
  | valueError
  | nameError
  | exception
deriving DecidableEq

/-- Python `d.get(k, default)`: only defined for dicts. -/
def pyGetD (j : Json) (k : Str) (default : Json) : Except PyExc Json :=
  match j with
  | .obj kvs => .ok ((objLookup kvs k).getD default)
  | _ => .error .attributeError

/-- Python `d.get(k)` (default `None`). -/
def pyGet (j : Json) (k : Str) : Except PyExc Json := pyGetD j k .null

/-- Python `x in j` for a string `x` (dict key / list element / substring). -/
def pyContains (j : Json) (k : Str) : Except PyExc Bool :=
  match j with
  | .obj kvs => .ok ((objLookup kvs k).isSome)
  | .arr xs => .ok (xs.any (fun e => jsonBeq e (.str k)))
  | .str s => .ok (infixOf k s)
  | _ => .error .typeError

/-- Python `j[0]` (list / string indexing). -/
def pyIndex0 (j : Json) : Except PyExc Json :=
  match j with
  | .arr (x :: _) => .ok x
  | .arr [] => .error .keyError
  | .str (c :: _) => .ok (.str [c])
  | .str [] => .error .keyError
  | _ => .error .typeError

/-- Python `s.lower()` on a value that must be a string. -/
def pyLowerJ (j : Json) : Except PyExc Str :=
  match j with
  | .str s => .ok (strLower s)
  | _ => .error .attributeError

/-- Python `a or b` (returns `a` when truthy, else `b`). -/
def pyOr (a b : Json) : Json := if truthy a then a else b

/-- Python iteration `for x in j` (list elements, string characters, dict
keys). -/
def pyIter (j : Json) : Except PyExc (List Json) :=
  match j with
  | .arr xs => .ok xs
  | .str s => .ok (s.map (fun c => .str [c]))
  | .obj kvs => .ok (kvs.map (fun kv => .str kv.1))
  | _ => .error .typeError

/-- Python `str(x)` for the scalar shapes the source feeds it. -/
def pyStr : Json → Str
  | .null => "None".data
  | .bool true => "True".data
  | .bool false => "False".data
  | .num l => l
  | .str s => s
  | .arr _ => "<list>".data
  | .obj _ => "<dict>".data

/-! ## `json.loads` -/

/-- Skip JSON insignificant whitespace. -/
def skipWs (s : Str) : Str := s.dropWhile isWs

/-- Value of a hexadecimal digit. -/
def hexVal (c : Char) : Option Nat :=
  if '0' ≤ c ∧ c ≤ '9' then some (c.toNat - '0'.toNat)
  else if 'a' ≤ c ∧ c ≤ 'f' then some (c.toNat - 'a'.toNat + 10)
  else if 'A' ≤ c ∧ c ≤ 'F' then some (c.toNat - 'A'.toNat + 10)
  else none

/-- Parse a JSON string body (after the opening quote). -/
def pStr (fuel : Nat) (s : Str) : Option (Str × Str) :=
  match fuel, s with
  | 0, _ => none
  | _, [] => none
  | fuel + 1, c :: rest =>
    if c = '"' then some ([], rest)
    else if c = '\\' then
      match rest with
      | [] => none
      | e :: rest' =>
        if e = 'u' then
          match rest' with
          | h1 :: h2 :: h3 :: h4 :: rest'' =>
            match hexVal h1, hexVal h2, hexVal h3, hexVal h4 with
            | some a, some b, some c', some d =>
              (pStr fuel rest'').map fun (t, r) =>
                (Char.ofNat (((a * 16 + b) * 16 + c') * 16 + d) :: t, r)
            | _, _, _, _ => none
          | _ => none
        else
          let esc : Option Char :=
            if e = '"' then some '"'
            else if e = '\\' then some '\\'
            else if e = '/' then some '/'
            else if e = 'b' then some (Char.ofNat 8)
            else if e = 'f' then some (Char.ofNat 12)
            else if e = 'n' then some '\n'
            else if e = 'r' then some '\r'
            else if e = 't' then some '\t'
            else none
          match esc with
          | some ch => (pStr fuel rest').map fun (t, r) => (ch :: t, r)
          | none => none
    else (pStr fuel rest).map fun (t, r) => (c :: t, r)

/-- Characters that may occur in a number lexeme.  (The grammar is slightly
more liberal than Python's, which is irrelevant for well-formed inputs.) -/
def isNumChar (c : Char) : Bool :=
  c.isDigit ∨ c = '-' ∨ c = '+' ∨ c = '.' ∨ c = 'e' ∨ c = 'E'

mutual

/-- Parse one JSON value. -/
def pVal (fuel : Nat) (s : Str) : Option (Json × Str) :=
  match fuel with
  | 0 => none
  | fuel + 1 =>
    match s with
    | [] => none
    | c :: rest =>
      if c = 'n' then
        if "ull".data.isPrefixOf rest then some (.null, rest.drop 3) else none
      else if c = 't' then
        if "rue".data.isPrefixOf rest then some (.bool true, rest.drop 3) else none
      else if c = 'f' then
        if "alse".data.isPrefixOf rest then some (.bool false, rest.drop 4) else none
      else if c = '"' then
        (pStr fuel rest).map fun (t, r) => (.str t, r)
      else if c = '[' then
        match skipWs rest with
        | ']' :: r => some (.arr [], r)
        | r => (pArrElems fuel r).map fun (xs, r') => (.arr xs, r')
      else if c = '{' then
        -- duplicate keys: Python keeps the last value (dict assignment)
        match skipWs rest with
        | '}' :: r => some (.obj [], r)
        | r => (pObjItems fuel r).map fun (kvs, r') =>
            (.obj (kvs.foldl (fun acc kv => objInsert acc kv.1 kv.2) []), r')
      else if c = '-' ∨ c.isDigit then
        let lex := (c :: rest).takeWhile isNumChar
        if lex.any Char.isDigit then some (.num lex, (c :: rest).dropWhile isNumChar)
        else none
      else none

/-- Parse the elements of a (non-empty) JSON array. -/
def pArrElems (fuel : Nat) (s : Str) : Option (List Json × Str) :=
  match fuel with
  | 0 => none
  | fuel + 1 =>
    match pVal fuel (skipWs s) with
    | none => none
    | some (v, rest) =>
      match skipWs rest with
      | ',' :: r => (pArrElems fuel r).map fun (xs, r') => (v :: xs, r')
      | ']' :: r => some ([v], r)
      | _ => none

/-- Parse the items of a (non-empty) JSON object. -/
def pObjItems (fuel : Nat) (s : Str) : Option (List (Str × Json) × Str) :=
  match fuel with
  | 0 => none
  | fuel + 1 =>
    match skipWs s with
    | '"' :: rest =>
      match pStr fuel rest with
      | none => none
      | some (k, rest') =>
        match skipWs rest' with
        | ':' :: rest'' =>
          match pVal fuel (skipWs rest'') with
          | none => none
          | some (v, rest''') =>
            match skipWs rest''' with
            | ',' :: r => (pObjItems fuel r).map fun (kvs, r') => ((k, v) :: kvs, r')
            | '}' :: r => some ([(k, v)], r)
            | _ => none
        | _ => none
    | _ => none

end

/-- Python `json.loads` (returns `none` where Python raises). -/
def jloads (s : Str) : Option Json :=
  match pVal (2 * s.length + 4) (skipWs s) with
  | some (v, rest) => if (skipWs rest).isEmpty then some v else none
  | none => none

/-! ## `json.dumps` -/

/-- Hexadecimal digit characters. -/
def hexDigit (n : Nat) : Char :=
  if n < 10 then Char.ofNat ('0'.toNat + n) else Char.ofNat ('a'.toNat + n - 10)

/-- Four-digit hex escape body. -/
def hex4 (n : Nat) : Str :=
  [hexDigit (n / 4096 % 16), hexDigit (n / 256 % 16), hexDigit (n / 16 % 16), hexDigit (n % 16)]

/-- JSON string escaping as performed by `json.dumps`. -/
def escChar (ensureAscii : Bool) (c : Char) : Str :=
  if c = '"' then "\\\"".data
  else if c = '\\' then "\\\\".data
  else if c = '\n' then "\\n".data
  else if c = '\r' then "\\r".data
  else if c = '\t' then "\\t".data
  else if c.toNat = 8 then "\\b".data
  else if c.toNat = 12 then "\\f".data
  else if c.toNat < 32 ∨ (ensureAscii ∧ c.toNat > 127) then '\\' :: 'u' :: hex4 c.toNat
  else [c]

/-- Serialise a JSON string literal. -/
def dumpStrLit (ensureAscii : Bool) (s : Str) : Str :=
  '"' :: (s.flatMap (escChar ensureAscii)) ++ ['"']

/-- Lexicographic (code-point) string order, as used by `sort_keys=True`. -/
def strLt : Str → Str → Bool
  | [], [] => false
  | [], _ :: _ => true
  | _ :: _, [] => false
  | a :: as', b :: bs => if a = b then strLt as' bs else decide (a < b)

/-- Insertion sort of dict items by key. -/
def sortKvs (kvs : List (Str × Json)) : List (Str × Json) :=
  let rec ins (kv : Str × Json) : List (Str × Json) → List (Str × Json)
    | [] => [kv]
    | kv' :: rest => if strLt kv.1 kv'.1 then kv :: kv' :: rest else kv' :: ins kv rest
  kvs.foldr ins []

/-- Interleave a separator. -/
def joinSep (sep : Str) : List Str → Str
  | [] => []
  | [x] => x
  | x :: rest => x ++ sep ++ joinSep sep rest

/-- Options of `json.dumps` that the source varies. -/
structure DumpOpts where
  ensureAscii : Bool
  itemSep : Str
  kvSep : Str

/-- Python `json.dumps` defaults. -/
def defaultOpts : DumpOpts := ⟨true, ", ".data, ": ".data⟩

/-- `json.dumps(..., ensure_ascii=False)`. -/
def noAsciiOpts : DumpOpts := ⟨false, ", ".data, ": ".data⟩

/-- `json.dumps(..., separators=(',', ':'))` (fingerprint canonicalisation;
key sorting is applied by `sortJson` below). -/
def canonicalOpts : DumpOpts := ⟨true, ",".data, ":".data⟩

mutual

/-- `json.dumps` with the given options (keys in stored order). -/
def jdumps (o : DumpOpts) : Json → Str
  | .null => "null".data
  | .bool true => "true".data
  | .bool false => "false".data
  | .num l => l
  | .str s => dumpStrLit o.ensureAscii s
  | .arr xs => '[' :: joinSep o.itemSep (jdumpsList o xs) ++ [']']
  | .obj kvs => '{' :: joinSep o.itemSep (jdumpsKvs o kvs) ++ ['}']

/-- Serialise array elements. -/
def jdumpsList (o : DumpOpts) : List Json → List Str
  | [] => []
  | x :: rest => jdumps o x :: jdumpsList o rest

/-- Serialise object items. -/
def jdumpsKvs (o : DumpOpts) : List (Str × Json) → List Str
  | [] => []
  | (k, v) :: rest => (dumpStrLit o.ensureAscii k ++ o.kvSep ++ jdumps o v) :: jdumpsKvs o rest

end

mutual

/-- Recursively sort every object's keys (the effect of `sort_keys=True`). -/
def sortJson : Json → Json
  | .obj kvs => .obj (sortKvs (sortJsonKvs kvs))
  | .arr xs => .arr (sortJsonList xs)
  | j => j

/-- Key-sorting pass on array elements. -/
def sortJsonList : List Json → List Json
  | [] => []
  | x :: rest => sortJson x :: sortJsonList rest

/-- Key-sorting pass on object values. -/
def sortJsonKvs : List (Str × Json) → List (Str × Json)
  | [] => []
  | (k, v) :: rest => (k, sortJson v) :: sortJsonKvs rest

end

/-- `json.dumps(x, sort_keys=True, separators=(',', ':'))`. -/
def jdumpsCanonical (j : Json) : Str := jdumps canonicalOpts (sortJson j)

/-! ## Tool-Text Extractor (`LiteConverter._parse_tools_from_text`)

The five regex dialects of `src/app/converter.py` lines 225-380 are
implemented as explicit left-to-right scanners with the exact semantics of
`re.findall` on the source patterns (leftmost, non-overlapping matches;
failure at a position advances the scan by one character). -/

/-- The brace / backtick / apostrophe characters, by code point. -/
def lbr : Char := Char.ofNat 123

/-- Closing brace. -/
def rbr : Char := Char.ofNat 125

/-- Backtick. -/
def btick : Char := Char.ofNat 96

/-- Single quote. -/
def squote : Char := Char.ofNat 39

/-- One recovered tool invocation: `{'name': ..., 'arguments': ...}`. -/
structure ToolCall where
  name : Json
  args : Json

/-- `re.findall(r'OPEN([^>]+)>(.*?)CLOSE', text, re.DOTALL)` for a literal
`OPEN` ending in `=` and literal `CLOSE` — the common shape of the
dialect-1 function and parameter patterns. -/
def scanEqTag (openTag closeTag : Str) (fuel : Nat) (s : Str) : List (Str × Str) :=
  match fuel with
  | 0 => []
  | fuel + 1 =>
    match s with
    | [] => []
    | c :: rest =>
      if openTag.isPrefixOf (c :: rest) then
        let after := (c :: rest).drop openTag.length
        let g1 := after.takeWhile (· ≠ '>')
        match g1, after.drop g1.length with
        | _ :: _, '>' :: rem2 =>
          match findSub closeTag rem2 with
          | some j => (g1, rem2.take j) :: scanEqTag openTag closeTag fuel (rem2.drop (j + closeTag.length))
          | none => scanEqTag openTag closeTag fuel rest
        | _, _ => scanEqTag openTag closeTag fuel rest
      else scanEqTag openTag closeTag fuel rest

/-- Strip a dotted prefix from a name: `tool_name.split('.')[-1]` applied
when `'.' in tool_name`. -/
def dotStrip (s : Str) : Str := if infixOf ".".data s then lastComponent s else s

/-- One step of the dialect-1 loop. -/
def d1Step (acc : List ToolCall) (m : Str × Str) : List ToolCall :=
  let name := strip m.1
  if name.isEmpty then acc
  else
    let name := dotStrip name
    let params := scanEqTag "<parameter=".data "</parameter>".data (m.2.length + 1) m.2
    let args := params.foldl
      (fun a pm =>
        let pv := strip pm.2
        objInsert a (strip pm.1) ((jloads pv).getD (.str pv))) []
    acc ++ [⟨.str name, .obj args⟩]

/-- Dialect 1: `<function=NAME>…<parameter=K>V</parameter>…</function>`. -/
def d1Tools (text : Str) : List ToolCall :=
  (scanEqTag "<function=".data "</function>".data (text.length + 1) text).foldl d1Step []

/-- Scanner for dialect 2:
`<function=execute><name=NAME</name><parameter=string>JSON</parameter></function>`. -/
def scanD2 (fuel : Nat) (s : Str) : List (Str × Str) :=
  match fuel with
  | 0 => []
  | fuel + 1 =>
    match s with
    | [] => []
    | c :: rest =>
      if "<function=execute><name=".data.isPrefixOf (c :: rest) then
        let a := (c :: rest).drop 24
        match findSub "</name>".data a with
        | some k =>
          let g1 := a.take k
          if g1.isEmpty ∨ g1.contains '>' then scanD2 fuel rest
          else
            let b := a.drop (k + 7)
            if "<parameter=string>".data.isPrefixOf b then
              let c2 := b.drop 18
              let g2 := c2.takeWhile (· ≠ '<')
              if ¬ g2.isEmpty ∧ "</parameter></function>".data.isPrefixOf (c2.drop g2.length) then
                (g1, g2) :: scanD2 fuel (c2.drop (g2.length + 23))
              else scanD2 fuel rest
            else scanD2 fuel rest
        | none => scanD2 fuel rest
      else scanD2 fuel rest

/-- One step of the dialect-2 loop. -/
def d2Step (acc : List ToolCall) (m : Str × Str) : List ToolCall :=
  let name := strip m.1
  if name.isEmpty then acc
  else acc ++ [⟨.str (dotStrip name), (jloads m.2).getD (.obj [])⟩]

/-- Dialect 2 extraction. -/
def d2Tools (text : Str) : List ToolCall :=
  (scanD2 (text.length + 1) text).foldl d2Step []

/-- `\w` word characters (ASCII fragment). -/
def isWordChar (c : Char) : Bool := c.isAlphanum ∨ c = '_'

/-- `re.findall(r'(\w+)\s*=\s*["\x27]([^"\x27]*)["\x27]', args)`: shallow
`key='value'` pairs (quote kinds may be mismatched, as in the source
pattern). -/
def scanArgPairs (fuel : Nat) (s : Str) : List (Str × Str) :=
  match fuel with
  | 0 => []
  | fuel + 1 =>
    match s with
    | [] => []
    | c :: rest =>
      if isWordChar c then
        let key := (c :: rest).takeWhile isWordChar
        let r1 := ((c :: rest).drop key.length).dropWhile isWs
        match r1 with
        | '=' :: r2 =>
          let r3 := r2.dropWhile isWs
          match r3 with
          | q :: r4 =>
            if q = '"' ∨ q = squote then
              let v := r4.takeWhile (fun ch => ch ≠ '"' ∧ ch ≠ squote)
              match r4.drop v.length with
              | q2 :: r5 =>
                if q2 = '"' ∨ q2 = squote then (key, v) :: scanArgPairs fuel r5
                else scanArgPairs fuel rest
              | [] => scanArgPairs fuel rest
            else scanArgPairs fuel rest
          | [] => scanArgPairs fuel rest
        | _ => scanArgPairs fuel rest
      else scanArgPairs fuel rest

/-- `re.match(r'(\w+)\s*\(([^)]*)\)', tool_call)`. -/
def matchCall (t : Str) : Option (Str × Str) :=
  let name := t.takeWhile isWordChar
  if name.isEmpty then none
  else
    match (t.drop name.length).dropWhile isWs with
    | '(' :: r =>
      let args := r.takeWhile (· ≠ ')')
      match r.drop args.length with
      | ')' :: _ => some (name, args)
      | _ => none
    | _ => none

/-- Scanner for `<tool_code>…</tool_code>` bodies. -/
def scanD3 (fuel : Nat) (s : Str) : List Str :=
  match fuel with
  | 0 => []
  | fuel + 1 =>
    match s with
    | [] => []
    | c :: rest =>
      if "<tool_code>".data.isPrefixOf (c :: rest) then
        let a := (c :: rest).drop 11
        let g := a.takeWhile (· ≠ '<')
        if ¬ g.isEmpty ∧ "</tool_code>".data.isPrefixOf (a.drop g.length) then
          g :: scanD3 fuel (a.drop (g.length + 12))
        else scanD3 fuel rest
      else scanD3 fuel rest

/-- One step of the dialect-3 loop. -/
def d3Step (acc : List ToolCall) (body : Str) : List ToolCall :=
  let t := strip body
  if t.isEmpty then acc
  else
    match matchCall t with
    | none => acc
    | some (name, argsStr) =>
      let name := dotStrip name
      let args :=
        if (strip argsStr).isEmpty then ([] : List (Str × Json))
        else (scanArgPairs (argsStr.length + 1) argsStr).foldl
          (fun a kv => objInsert a kv.1 (.str kv.2)) []
      acc ++ [⟨.str name, .obj args⟩]

/-- Dialect 3: `<tool_code>name(k='v', …)</tool_code>`. -/
def d3Tools (text : Str) : List ToolCall :=
  (scanD3 (text.length + 1) text).foldl d3Step []

/-- Remove trailing whitespace. -/
def rstrip (s : Str) : Str := s.reverse.dropWhile isWs |>.reverse

/-- Scanner for dialect 4 ` ```json {…} ``` ` blocks
(`re.findall(r'\x60\x60\x60json\s*(\x7b[^\x60]+\x7d)\s*\x60\x60\x60', text, re.DOTALL)`). -/
def scanD4 (fuel : Nat) (s : Str) : List Str :=
  match fuel with
  | 0 => []
  | fuel + 1 =>
    match s with
    | [] => []
    | c :: rest =>
      if (btick :: btick :: btick :: "json".data).isPrefixOf (c :: rest) then
        let a := ((c :: rest).drop 7).dropWhile isWs
        match a with
        | b :: a' =>
          if b = lbr then
            let run := a'.takeWhile (· ≠ btick)
            let afterRun := a'.drop run.length
            let core := rstrip run
            if ¬ core.isEmpty ∧ core.getLast? = some rbr ∧
                (btick :: btick :: [btick]).isPrefixOf afterRun then
              (lbr :: core) :: scanD4 fuel (afterRun.drop 3)
            else scanD4 fuel rest
          else scanD4 fuel rest
        | [] => scanD4 fuel rest
      else scanD4 fuel rest

/-- Dialect 4 extraction: parse the JSON block, read `tool_name` /
`parameters`; any Python exception inside the `try` skips the block.
`'.' in tool_name` is a substring test for strings, membership for
lists/dicts, and a `TypeError` (block skipped) otherwise. -/
def d4Step (acc : List ToolCall) (block : Str) : List ToolCall :=
  match jloads block with
  | some (.obj kvs) =>
    let tn := (objLookup kvs "tool_name".data).getD (.str [])
    let params := (objLookup kvs "parameters".data).getD (.obj [])
    if ¬ truthy tn then acc
    else
      match tn with
      | .str s => acc ++ [⟨.str (dotStrip s), params⟩]
      | .arr xs =>
        if xs.any (fun e => jsonBeq e (.str ".".data)) then acc
        else acc ++ [⟨.arr xs, params⟩]
      | .obj kvs' =>
        if (objLookup kvs' ".".data).isSome then acc
        else acc ++ [⟨.obj kvs', params⟩]
      | _ => acc
  | _ => acc

/-- Dialect 4 extraction over the scanned blocks. -/
def d4Tools (text : Str) : List ToolCall :=
  (scanD4 (text.length + 1) text).foldl d4Step []

/-- Scanner for dialect 5
(`re.findall(r'\[\x7b"name":\s*"([^"]+)",\s*"arguments":\s*(\x7b[^\x7d]+\x7d)\x7d\]', text)`). -/
def scanD5 (fuel : Nat) (s : Str) : List (Str × Str) :=
  match fuel with
  | 0 => []
  | fuel + 1 =>
    match s with
    | [] => []
    | c :: rest =>
      if ('[' :: lbr :: "\"name\":".data).isPrefixOf (c :: rest) then
        let a := ((c :: rest).drop 9).dropWhile isWs
        match a with
        | '"' :: r =>
          let g1 := r.takeWhile (· ≠ '"')
          if g1.isEmpty then scanD5 fuel rest
          else
            match r.drop g1.length with
            | '"' :: ',' :: r3 =>
              let r4 := r3.dropWhile isWs
              if "\"arguments\":".data.isPrefixOf r4 then
                let r5 := (r4.drop 12).dropWhile isWs
                match r5 with
                | b :: r6 =>
                  if b = lbr then
                    let inner := r6.takeWhile (· ≠ rbr)
                    if inner.isEmpty then scanD5 fuel rest
                    else
                      match r6.drop inner.length with
                      | b2 :: b3 :: b4 :: r8 =>
                        if b2 = rbr ∧ b3 = rbr ∧ b4 = ']' then
                          (g1, lbr :: inner ++ [rbr]) :: scanD5 fuel r8
                        else scanD5 fuel rest
                      | _ => scanD5 fuel rest
                  else scanD5 fuel rest
                | [] => scanD5 fuel rest
              else scanD5 fuel rest
            | _ => scanD5 fuel rest
        | _ => scanD5 fuel rest
      else scanD5 fuel rest

/-- One step of the dialect-5 loop: no dotted-prefix stripping here. -/
def d5Step (acc : List ToolCall) (m : Str × Str) : List ToolCall :=
  let name := strip m.1
  if name.isEmpty then acc
  else acc ++ [⟨.str name, (jloads m.2).getD (.obj [])⟩]

/-- Dialect 5: `[{"name": NAME, "arguments": {…}}]`. -/
def d5Tools (text : Str) : List ToolCall :=
  (scanD5 (text.length + 1) text).foldl d5Step []

/-- `LiteConverter._parse_tools_from_text`: try the five dialects in order
and return the first non-empty result. -/
def parseToolsFromText (text : Str) : List ToolCall :=
  let t1 := d1Tools text
  if ¬ t1.isEmpty then t1 else
  let t2 := d2Tools text
  if ¬ t2.isEmpty then t2 else
  let t3 := d3Tools text
  if ¬ t3.isEmpty then t3 else
  let t4 := d4Tools text
  if ¬ t4.isEmpty then t4 else
  d5Tools text

/-! ## Message Translator (`LiteConverter`, `src/app/converter.py`) -/

/-- Python `acc += item.get('text', '')` on a string accumulator. -/
def pyConcatStr (acc : Str) (j : Json) : Except PyExc Str :=
  match j with
  | .str s => .ok (acc ++ s)
  | _ => .error .typeError

/-- `any(item.get('type') in ['tool_use', 'tool_result'] for item in content)`
(short-circuiting, raising on a non-dict item it reaches). -/
def anyToolItem : List Json → Except PyExc Bool
  | [] => .ok false
  | it :: rest => do
    let t ← pyGet it "type".data
    if jsonBeq t (.str "tool_use".data) ∨ jsonBeq t (.str "tool_result".data) then .ok true
    else anyToolItem rest

/-- The assistant branch of `convert_messages`: collect `tool_calls` and the
concatenated text. -/
def collectAssistant : List Json → Except PyExc (List Json × Str)
  | [] => .ok ([], [])
  | it :: rest => do
    let (tcs, txt) ← collectAssistant rest
    let t ← pyGet it "type".data
    if jsonBeq t (.str "tool_use".data) then
      let id' ← pyGetD it "id".data (.str [])
      let name ← pyGetD it "name".data (.str [])
      let input ← pyGetD it "input".data (.obj [])
      let tc : Json := .obj
        [("id".data, id'), ("type".data, .str "function".data),
         ("function".data, .obj
           [("name".data, name),
            ("arguments".data, .str (jdumps defaultOpts input))])]
      .ok (tc :: tcs, txt)
    else if jsonBeq t (.str "text".data) then
      let tx ← pyGetD it "text".data (.str [])
      match tx with
      | .str s => .ok (tcs, s ++ txt)
      | _ => .error .typeError
    else .ok (tcs, txt)

/-- The user/tool-result branch of `convert_messages`: fold the items over
the message dict under construction. -/
def foldToolResult (msg : List (Str × Json)) : List Json → Except PyExc (List (Str × Json))
  | [] => .ok msg
  | it :: rest => do
    let t ← pyGet it "type".data
    let msg' ←
      if jsonBeq t (.str "tool_result".data) then do
        let tuid ← pyGetD it "tool_use_id".data (.str [])
        let rc ← pyGetD it "content".data (.str [])
        let contentVal : Json :=
          match rc with
          | .obj _ => .str (jdumps noAsciiOpts rc)
          | .arr _ => .str (jdumps noAsciiOpts rc)
          | _ => .str (pyStr rc)
        pure (objInsert (objInsert msg "tool_call_id".data tuid) "content".data contentVal)
      else if jsonBeq t (.str "text".data) ∧
          ¬ truthy ((objLookup msg "content".data).getD .null) then do
        let tx ← pyGetD it "text".data (.str [])
        pure (objInsert msg "content".data tx)
      else pure msg
    foldToolResult msg' rest

/-- Concatenate the text parts of a plain multipart message. -/
def concatTextItems : List Json → Except PyExc Str
  | [] => .ok []
  | it :: rest => do
    let t ← pyGet it "type".data
    if jsonBeq t (.str "text".data) then do
      let tx ← pyGetD it "text".data (.str [])
      match tx with
      | .str s => do
        let restTxt ← concatTextItems rest
        .ok (s ++ restTxt)
      | _ => .error .typeError
    else concatTextItems rest

/-- `LiteConverter.convert_messages` on one message. -/
def liteConvertOneMessage (m : Json) : Except PyExc Json := do
  let role ← pyGetD m "role".data (.str "user".data)
  let content ← pyGetD m "content".data (.str [])
  let openaiRole : Json :=
    if jsonBeq role (.str "assistant".data) then .str "assistant".data else .str "user".data
  match content with
  | .arr items => do
    let hasTools ← anyToolItem items
    if hasTools ∧ jsonBeq role (.str "assistant".data) then do
      let (tcs, txt) ← collectAssistant items
      let base : List (Str × Json) :=
        [("role".data, openaiRole),
         ("content".data, if txt.isEmpty then .null else .str txt)]
      .ok (.obj (if tcs.isEmpty then base else base ++ [("tool_calls".data, .arr tcs)]))
    else if hasTools ∧ jsonBeq role (.str "user".data) then do
      let msg ← foldToolResult
        [("role".data, .str "tool".data), ("content".data, .str [])] items
      .ok (.obj msg)
    else do
      let txt ← concatTextItems items
      .ok (.obj [("role".data, openaiRole), ("content".data, .str txt)])
  | _ => .ok (.obj [("role".data, openaiRole), ("content".data, content)])

/-- `LiteConverter.convert_messages`. -/
def liteConvertMessages : List Json → Except PyExc (List Json)
  | [] => .ok []
  | m :: rest => do
    let m' ← liteConvertOneMessage m
    let rest' ← liteConvertMessages rest
    .ok (m' :: rest')

/-- `stop_mapping.get(finish_reason, 'end_turn')`.  A non-hashable
`finish_reason` (list/dict) raises. -/
def stopMapping (finishReason : Json) : Except PyExc Json :=
  match finishReason with
  | .arr _ => .error .typeError
  | .obj _ => .error .typeError
  | fr =>
    if jsonBeq fr (.str "stop".data) then .ok (.str "end_turn".data)
    else if jsonBeq fr (.str "length".data) then .ok (.str "max_tokens".data)
    else if jsonBeq fr (.str "tool_calls".data) then .ok (.str "tool_use".data)
    else if jsonBeq fr (.str "content_filter".data) then .ok (.str "stop_sequence".data)
    else .ok (.str "end_turn".data)

/-- `json.loads(function.get('arguments', '{}'))` — raises on a non-string
argument or on a parse failure. -/
def pyJsonLoads (j : Json) : Except PyExc Json :=
  match j with
  | .str s =>
    match jloads s with
    | some v => .ok v
    | none => .error .valueError
  | _ => .error .typeError

/-- Convert the entries of a structured `tool_calls` array into
`tool_use` content parts. -/
def toolCallsToContent : List Json → Except PyExc (List Json)
  | [] => .ok []
  | tc :: rest => do
    let function ← pyGetD tc "function".data (.obj [])
    let id' ← pyGetD tc "id".data (.str [])
    let name ← pyGetD function "name".data (.str [])
    let argsRaw ← pyGetD function "arguments".data (.str (lbr :: [rbr]))
    let input ← pyJsonLoads argsRaw
    let rest' ← toolCallsToContent rest
    .ok (.obj [("type".data, .str "tool_use".data), ("id".data, id'),
               ("name".data, name), ("input".data, input)] :: rest')

/-- `LiteConverter.convert_response` (`src/app/converter.py` lines
150-223).  `fresh n` models the hex digest of the `n`-th
`uuid.uuid4().hex` call made by this invocation. -/
def liteConvertResponse (fresh : Nat → Str) (resp : Json) : Except PyExc Json := do
  let choices ← pyGet resp "choices".data
  if ¬ truthy choices then .error .exception
  else do
    let originalId ← pyGetD resp "id".data (.str [])
    let responseId : Except PyExc Str :=
      if truthy originalId then
        match originalId with
        | .str s => .ok ("msg_".data ++ removeAll "chat-".data s)
        | _ => .error .attributeError
      else .ok ("msg_".data ++ (fresh 0).take 12)
    let rid ← responseId
    let model ← pyGetD resp "model".data (.str [])
    let usage ← pyGetD resp "usage".data (.obj [])
    let inputTokens ← pyGetD usage "prompt_tokens".data (.num "0".data)
    let outputTokens ← pyGetD usage "completion_tokens".data (.num "0".data)
    let choice ← pyIndex0 choices
    let message ← pyGetD choice "message".data (.obj [])
    let toolCalls ← pyGet message "tool_calls".data
    let content : Except PyExc (List Json) :=
      if truthy toolCalls then do
        let entries ← pyIter toolCalls
        toolCallsToContent entries
      else do
        let c ← pyGet message "content".data
        let rc ← pyGetD message "reasoning_content".data (.str [])
        let messageContent := pyOr c rc
        if truthy messageContent then
          match messageContent with
          | .str s =>
            let parsed := parseToolsFromText s
            if ¬ parsed.isEmpty then
              .ok ((parsed.enum.map (fun (i, t) =>
                Json.obj [("type".data, .str "tool_use".data),
                          ("id".data, .str ("toolu_".data ++ (fresh (i + 1)).take 24)),
                          ("name".data, t.name), ("input".data, t.args)])))
            else .ok [.obj [("type".data, .str "text".data), ("text".data, .str s)]]
          | _ => .error .typeError
        else .ok []
    let contentList ← content
    let finishReason ← pyGetD choice "finish_reason".data (.str "stop".data)
    let stopReason ← stopMapping finishReason
    .ok (.obj
      [("id".data, .str rid),
       ("type".data, .str "message".data),
       ("role".data, .str "assistant".data),
       ("content".data, .arr contentList),
       ("model".data, model),
       ("stop_reason".data, stopReason),
       ("usage".data, .obj
         [("input_tokens".data, inputTokens),
          ("output_tokens".data, outputTokens)])])

/-! ## `AnthropicToOpenAIConverter.convert_response` (`src/converter_class.py`) -/

/-- Python `j[k]` on a dict-shaped value. -/
def pyGetItem (j : Json) (k : Str) : Except PyExc Json :=
  match j with
  | .obj kvs =>
    match objLookup kvs k with
    | some v => .ok v
    | none => .error .keyError
  | _ => .error .typeError

/-- `AnthropicToOpenAIConverter._is_error_response`. -/
def classIsErrorResponse (resp : Json) : Except PyExc Bool := do
  let hasStatus ← pyContains resp "status".data
  if hasStatus then do
    let st ← pyGetItem resp "status".data
    if ¬ jsonBeq st (.str "200".data) then return true
    else pure ()
  let hasError ← pyContains resp "error".data
  if hasError then return true
  let hasChoices ← pyContains resp "choices".data
  if ¬ hasChoices then return true
  let body ← pyGet resp "body".data
  if jsonBeq body .null ∧ ¬ hasChoices then return true
  return false

/-- `AnthropicToOpenAIConverter._convert_stop_reason`. -/
def classConvertStopReason (fr : Json) : Except PyExc Json :=
  match fr with
  | .arr _ => .error .typeError
  | .obj _ => .error .typeError
  | fr =>
    if jsonBeq fr (.str "stop".data) then .ok (.str "end_turn".data)
    else if jsonBeq fr (.str "length".data) then .ok (.str "max_tokens".data)
    else if jsonBeq fr (.str "content_filter".data) then .ok (.str "stop_sequence".data)
    else if jsonBeq fr (.str "tool_calls".data) then .ok (.str "tool_use".data)
    else .ok (.str "end_turn".data)

/-- `AnthropicToOpenAIConverter.convert_response` (lines 106-165).  The
upstream `id` passes through unchanged; `stop_reason` is recomputed from
`finish_reason` after the tool-call branch. -/
def classConvertResponse (resp : Json) : Except PyExc Json := do
  let isErr ← classIsErrorResponse resp
  if isErr then .error .exception
  else do
    let id' ← pyGetD resp "id".data (.str [])
    let model ← pyGetD resp "model".data (.str [])
    let usage ← pyGetD resp "usage".data (.obj [])
    let inputTokens ← pyGetD usage "prompt_tokens".data (.num "0".data)
    let outputTokens ← pyGetD usage "completion_tokens".data (.num "0".data)
    let choices ← pyGet resp "choices".data
    let (contentList, stopReason) ←
      if truthy choices then do
        let choice ← pyIndex0 choices
        let message ← pyGetD choice "message".data (.obj [])
        let hasToolCalls ← pyContains message "tool_calls".data
        let contentList ←
          if hasToolCalls then do
            let tcs ← pyGetItem message "tool_calls".data
            let entries ← pyIter tcs
            toolCallsToContent entries
          else do
            let c ← pyGetD message "content".data (.str [])
            let mc ← if ¬ truthy c then pyGetD message "reasoning_content".data (.str []) else pure c
            if truthy mc then
              pure [Json.obj [("type".data, .str "text".data), ("text".data, mc)]]
            else pure ([] : List Json)
        let fr ← pyGetD choice "finish_reason".data (.str "stop".data)
        let sr ← classConvertStopReason fr
        pure (contentList, sr)
      else pure ([], .str "end_turn".data)
    .ok (.obj
      [("id".data, id'),
       ("type".data, .str "message".data),
       ("role".data, .str "assistant".data),
       ("content".data, .arr contentList),
       ("model".data, model),
       ("stop_reason".data, stopReason),
       ("usage".data, .obj
         [("input_tokens".data, inputTokens),
          ("output_tokens".data, outputTokens)])])

/-! ## UTF-8 and MD5 (`request_str.encode()`, `hashlib.md5(...).hexdigest()`) -/

/-- UTF-8 encoding of one character. -/
def utf8Char (c : Char) : List Nat :=
  let n := c.toNat
  if n < 128 then [n]
  else if n < 2048 then [192 + n / 64, 128 + n % 64]
  else if n < 65536 then [224 + n / 4096, 128 + n / 64 % 64, 128 + n % 64]
  else [240 + n / 262144, 128 + n / 4096 % 64, 128 + n / 64 % 64, 128 + n % 64]

/-- UTF-8 encoding of a string (Python `str.encode()`). -/
def utf8Encode (s : Str) : List Nat := s.flatMap utf8Char

/-- The MD5 per-round constants `K[i] = floor(abs(sin(i+1)) * 2^32)`. -/
def md5K : List Nat :=
  [3614090360, 3905402710, 606105819, 3250441966, 4118548399, 1200080426, 2821735955, 4249261313,
   1770035416, 2336552879, 4294925233, 2304563134, 1804603682, 4254626195, 2792965006, 1236535329,
   4129170786, 3225465664, 643717713, 3921069994, 3593408605, 38016083, 3634488961, 3889429448,
   568446438, 3275163606, 4107603335, 1163531501, 2850285829, 4243563512, 1735328473, 2368359562,
   4294588738, 2272392833, 1839030562, 4259657740, 2763975236, 1272893353, 4139469664, 3200236656,
   681279174, 3936430074, 3572445317, 76029189, 3654602809, 3873151461, 530742520, 3299628645,
   4096336452, 1126891415, 2878612391, 4237533241, 1700485571, 2399980690, 4293915773, 2240044497,
   1873313359, 4264355552, 2734768916, 1309151649, 4149444226, 3174756917, 718787259, 3951481745]

/-- The MD5 per-round left-rotation amounts. -/
def md5S : List Nat :=
  [7, 12, 17, 22, 7, 12, 17, 22, 7, 12, 17, 22, 7, 12, 17, 22,
   5, 9, 14, 20, 5, 9, 14, 20, 5, 9, 14, 20, 5, 9, 14, 20,
   4, 11, 16, 23, 4, 11, 16, 23, 4, 11, 16, 23, 4, 11, 16, 23,
   6, 10, 15, 21, 6, 10, 15, 21, 6, 10, 15, 21, 6, 10, 15, 21]

/-- 32-bit truncation. -/
def m32 (n : Nat) : Nat := n % 4294967296

/-- 32-bit left rotation. -/
def rotl32 (x n : Nat) : Nat := m32 (x * 2 ^ n) + x / 2 ^ (32 - n) % 2 ^ n

/-- Bitwise complement on 32 bits. -/
def not32 (x : Nat) : Nat := 4294967295 - m32 x

/-- MD5 padding: append `0x80`, zero-fill to 56 mod 64, then the bit length
as a 64-bit little-endian integer. -/
def md5Pad (msg : List Nat) : List Nat :=
  let n := msg.length
  let padLen := (55 + 64 - n % 64) % 64 + 1
  let bitLen := (n * 8) % (2 ^ 64)
  msg ++ 128 :: List.replicate (padLen - 1) 0 ++
    (List.range 8).map (fun i => bitLen / 2 ^ (8 * i) % 256)

/-- Read the sixteen little-endian 32-bit words of one 64-byte chunk. -/
def md5Words (chunk : List Nat) : List Nat :=
  (List.range 16).map fun i =>
    (chunk.getD (4 * i) 0) + (chunk.getD (4 * i + 1) 0) * 256 +
    (chunk.getD (4 * i + 2) 0) * 65536 + (chunk.getD (4 * i + 3) 0) * 16777216

/-- One of the 64 MD5 steps. -/
def md5Step (w : List Nat) (st : Nat × Nat × Nat × Nat) (i : Nat) : Nat × Nat × Nat × Nat :=
  let (a, b, c, d) := st
  let (f, g) :=
    if i < 16 then ((b &&& c) ||| (not32 b &&& d), i)
    else if i < 32 then ((d &&& b) ||| (not32 d &&& c), (5 * i + 1) % 16)
    else if i < 48 then (b ^^^ c ^^^ d, (3 * i + 5) % 16)
    else (c ^^^ (b ||| not32 d), (7 * i) % 16)
  let f' := m32 (f + a + md5K.getD i 0 + w.getD g 0)
  (d, m32 (b + rotl32 f' (md5S.getD i 0)), b, c)

/-- Process one 64-byte chunk. -/
def md5Chunk (st : Nat × Nat × Nat × Nat) (chunk : List Nat) : Nat × Nat × Nat × Nat :=
  let w := md5Words chunk
  let (a, b, c, d) := (List.range 64).foldl (md5Step w) st
  let (a0, b0, c0, d0) := st
  (m32 (a0 + a), m32 (b0 + b), m32 (c0 + c), m32 (d0 + d))

/-- Fuel-driven 64-byte chunking (`l.length` fuel suffices). -/
def chunks64F : Nat → List Nat → List (List Nat)
  | 0, _ => []
  | _ + 1, [] => []
  | fuel + 1, x :: rest => (x :: rest).take 64 :: chunks64F fuel ((x :: rest).drop 64)

/-- Split into 64-byte chunks. -/
def chunks64 (l : List Nat) : List (List Nat) := chunks64F l.length l

/-- Little-endian lowercase-hex rendering of one 32-bit word. -/
def word2hex (x : Nat) : Str :=
  (List.range 4).flatMap fun i =>
    let byte := x / 2 ^ (8 * i) % 256
    [hexDigit (byte / 16), hexDigit (byte % 16)]

/-- `hashlib.md5(bytes).hexdigest()`. -/
def md5hex (msg : List Nat) : Str :=
  let (a, b, c, d) :=
    (chunks64 (md5Pad msg)).foldl md5Chunk (1732584193, 4023233417, 2562383102, 271733878)
  word2hex a ++ word2hex b ++ word2hex c ++ word2hex d

/-! ## Request Coalescer (`RequestDeduplicator`, `src/api_server.py` 241-336) -/

/-- The user-message normalisation of `_generate_request_hash`: only
`role == 'user'` messages are kept; a list content is replaced by the
concatenation of its text parts. -/
def processedUserMessages : List Json → Except PyExc (List Json)
  | [] => .ok []
  | m :: rest => do
    let role ← pyGet m "role".data
    if jsonBeq role (.str "user".data) then do
      let content ← pyGetD m "content".data (.str [])
      let entry ←
        match content with
        | .arr items => do
          let txt ← concatUserTextParts items
          pure (Json.obj [("role".data, .str "user".data), ("content".data, .str txt)])
        | c => pure (Json.obj [("role".data, .str "user".data), ("content".data, c)])
      let rest' ← processedUserMessages rest
      .ok (entry :: rest')
    else processedUserMessages rest
where
  /-- `''.join(text_parts)` over the items with `type == 'text'`. -/
  concatUserTextParts : List Json → Except PyExc Str
    | [] => .ok []
    | it :: rest => do
      let t ← pyGet it "type".data
      if jsonBeq t (.str "text".data) then do
        let tx ← pyGetD it "text".data (.str [])
        match tx with
        | .str s => do
          let rest' ← concatUserTextParts rest
          .ok (s ++ rest')
        | _ => .error .typeError
      else concatUserTextParts rest

/-- `RequestDeduplicator._generate_request_hash`. -/
def generateRequestHash (req : Json) : Except PyExc Str := do
  let messagesRaw ← pyGetD req "messages".data (.arr [])
  let msgs ← pyIter messagesRaw
  let processed ← processedUserMessages msgs
  let model ← pyGet req "model".data
  let tools ← pyGet req "tools".data
  let keyFields : Json := .obj
    [("model".data, model),
     ("messages".data, .arr processed),
     ("tools".data, tools)]
  .ok (md5hex (utf8Encode (jdumpsCanonical keyFields)))

/-- The deduplicator cache: fingerprint → (timestamp, cached response). -/
structure DedupState where
  cache : List (Str × (Nat × Json))
  cacheDuration : Nat

/-- `RequestDeduplicator.is_duplicate_request` at time `now`. -/
def isDuplicateRequest (st : DedupState) (now : Nat) (req : Json) :
    Except PyExc (Bool × Option Json × DedupState) := do
  let h ← generateRequestHash req
  match objLookup' st.cache h with
  | some (t, resp) =>
    if now - t < st.cacheDuration then .ok (true, some resp, st)
    else .ok (false, none, { st with cache := st.cache.filter (fun e => e.1 ≠ h) })
  | none => .ok (false, none, st)
where
  objLookup' (cache : List (Str × (Nat × Json))) (k : Str) : Option (Nat × Json) :=
    match cache with
    | [] => none
    | (k', v) :: rest => if k' = k then some v else objLookup' rest k

/-- `RequestDeduplicator.cache_response` at time `now` (insert, then sweep
expired entries). -/
def cacheResponse (st : DedupState) (now : Nat) (req : Json) (resp : Json) :
    Except PyExc DedupState := do
  let h ← generateRequestHash req
  let inserted :=
    if (st.cache.find? (fun e => e.1 = h)).isSome then
      st.cache.map (fun e => if e.1 = h then (h, (now, resp)) else e)
    else st.cache ++ [(h, (now, resp))]
  .ok { st with cache := inserted.filter (fun e => ¬ (now - e.2.1 ≥ st.cacheDuration)) }
-- note: `filter` keeps entries with `now - cached_time < cache_duration`,
-- matching the expiry sweep of the source

/-- The `/v1/messages` handler's interaction with the deduplicator for two
identical non-streaming requests (`src/api_server.py` 402-527): request 1
arrives at `t1`, request 2 at `t2`; the upstream call takes `latency`
seconds and returns `upResp`; a completed call caches its converted body.
Returns (number of upstream invocations, body seen by request 1, body seen
by request 2). -/
def runTwoRequests (t1 t2 latency ttl : Nat) (req upResp : Json) :
    Except PyExc (Nat × Json × Json) := do
  let st0 : DedupState := ⟨[], ttl⟩
  let (dup1, _, st1) ← isDuplicateRequest st0 t1 req
  -- request 1: never a duplicate on an empty cache; calls the upstream,
  -- completes at t1 + latency and caches the response then
  let calls1 := if dup1 then 0 else 1
  let body1 := upResp
  if t2 < t1 + latency then do
    -- request 2 arrives while request 1 is still in flight: the cache has
    -- not been written yet, so the lookup runs against the pre-completion
    -- state and the upstream is called again
    let (dup2, cached2, _) ← isDuplicateRequest st1 t2 req
    match dup2, cached2 with
    | true, some b => .ok (calls1, body1, b)
    | _, _ => .ok (calls1 + 1, body1, upResp)
  else do
    let st2 ← cacheResponse st1 (t1 + latency) req body1
    let (dup2, cached2, _) ← isDuplicateRequest st2 t2 req
    match dup2, cached2 with
    | true, some b => .ok (calls1, body1, b)
    | _, _ => .ok (calls1 + 1, body1, upResp)

/-! ## Upstream Adapter retry (`src/api_server.py` 341-400) -/

/-- An upstream HTTP response as the retry logic observes it. -/
structure UpResponse where
  status : Nat
  text : Str

/-- The textual rate-limit indicators of `is_rate_limit_error`. -/
def rlIndicators : List Str :=
  ["tpm".data, "rpm".data, "rate limit".data, "too many requests".data,
   "rate_limit_exceeded".data, "rate limited".data, "quota exceeded".data]

/-- `is_rate_limit_error` (status 429, or any indicator in the lower-cased
body). -/
def isRateLimitErr (r : UpResponse) : Bool :=
  r.status = 429 ∨ rlIndicators.any (fun m => infixOf m (strLower r.text))

/-- The marker list of the specification (§4.4): `TPM`, `RPM`,
`rate limit`, `too many requests`, `rate_limit_exceeded`,
`quota exceeded` — matched case-insensitively. -/
def specMarkers : List Str :=
  ["tpm".data, "rpm".data, "rate limit".data, "too many requests".data,
   "rate_limit_exceeded".data, "quota exceeded".data]

/-- `handle_rate_limit_with_backoff`, attempts `attempt, attempt+1, …` with
`remaining` retries left.  `call n` is the response of the `n`-th upstream
invocation and `jitter n` the value drawn by `random.uniform(0.1, 0.5)`
before the `n+1`-st invocation.  Returns (final response, sleeps performed,
number of upstream calls). -/
def hrlAux (call : Nat → UpResponse) (jitter : Nat → ℚ) :
    Nat → Nat → UpResponse × List ℚ × Nat
  | attempt, remaining =>
    let r := call attempt
    if r.status = 200 ∨ ¬ isRateLimitErr r then (r, [], attempt + 1)
    else
      match remaining with
      | 0 => (r, [], attempt + 1)
      | rem + 1 =>
        let w := min ((2 : ℚ) ^ attempt + jitter attempt) 30
        let (res, sleeps, calls) := hrlAux call jitter (attempt + 1) rem
        (res, w :: sleeps, calls)

/-- `handle_rate_limit_with_backoff(api_call_func, max_retries=3)`. -/
def handleRateLimitWithBackoff (call : Nat → UpResponse) (jitter : Nat → ℚ)
    (maxRetries : Nat := 3) : UpResponse × List ℚ × Nat :=
  hrlAux call jitter 0 maxRetries

/-! ## Error Classifier at the HTTP boundary -/

/-- The non-200 branch of the `/v1/messages` handler of `src/api_server.py`
(lines 495-516): returns (error kind, downstream status).  No
`retry-after` or `anthropic-ratelimit-*` headers are attached anywhere in
the handler. -/
def apiServerNon200 (status : Nat) (bodyText : Str) : Str × Nat :=
  if status = 429 ∨ infixOf "TPM".data bodyText ∨ infixOf "RPM".data bodyText then
    ("rate_limit_error".data, 429)
  else
    ("api_error".data, status)

/-- The extra response headers the handler attaches on that branch
(`jsonify(...), 429` — none). -/
def apiServerNon200Headers (status : Nat) (bodyText : Str) : List (Str × Str) := []

/-- The streaming branch of `src/app/server.py` for a non-200 upstream
(lines 330-341): the error is rewritten as an SSE body and delivered via
`Response(sse_err(), mimetype='text/event-stream', headers=...)` with no
status argument, so the outer HTTP status is Flask's default. -/
def appServerStreamErrorStatus (upstreamStatus : Nat) : Nat := 200

/-- The non-streaming branch of `src/app/server.py` for a non-200 upstream
(lines 366-367): `api_error` with the upstream status passed through. -/
def appServerNonStreamNon200 (status : Nat) (bodyText : Str) : Str × Nat :=
  ("api_error".data, status)

/-! ## SSE pacing layers (`sse_optimizer.py`, `simple_sse_optimizer.py`) -/

/-- An output item of a pacing generator: an emitted SSE chunk or a
`time.sleep`. -/
inductive PacedItem where
  | emit (s : Str)
  | sleepMs (q : ℚ)

/-- The emitted chunks of a paced stream. -/
def emittedOf (items : List PacedItem) : List Str :=
  items.filterMap fun i => match i with | .emit s => some s | .sleepMs _ => none

/-- `SimpleSSEOptimizer.enabled` (source line 14). -/
def simpleEnabled : Bool := true

/-- `SimpleSSEOptimizer.interval_ms` (source line 15). -/
def simpleIntervalMs : ℚ := 50

/-- The terminal-UI client identifiers checked by both optimizers. -/
def claudeIndicators : List Str :=
  ["claude-cli".data, "claude-code".data, "claude-code-router".data,
   "anthropic-claude-code".data]

/-- `SimpleSSEOptimizer.should_optimize`. -/
def simpleShouldOptimize (ua : Str) : Bool :=
  simpleEnabled ∧ claudeIndicators.any (fun i => infixOf i (strLower ua))

/-- The loop of `SimpleSSEOptimizer.optimize_stream.optimized_generator`:
yield each upstream chunk, sleeping `interval_ms` after each of the first
nine. -/
def simpleOptimizeLoop (count : Nat) : List Str → List PacedItem
  | [] => []
  | d :: rest =>
    .emit d :: (if count + 1 < 10 then [.sleepMs simpleIntervalMs] else []) ++
      simpleOptimizeLoop (count + 1) rest

/-- `SimpleSSEOptimizer.optimize_stream`. -/
def simpleOptimizeStream (evs : List Str) : List PacedItem :=
  if ¬ simpleEnabled then evs.map .emit
  else simpleOptimizeLoop 0 evs

/-- `SSEOptimizer.enable_optimization` (source line 21: disabled). -/
def sseEnableOptimization : Bool := false

/-- The indicator list of `SSEOptimizer.should_optimize` (different order,
same set). -/
def sseIndicators : List Str :=
  ["claude-code".data, "claude-code-router".data, "anthropic-claude-code".data,
   "claude-cli".data]

/-- `SSEOptimizer.should_optimize`. -/
def sseShouldOptimize (ua : Str) : Bool :=
  if ¬ sseEnableOptimization then false
  else sseIndicators.any (fun i => infixOf (strLower i) (strLower ua))

/-- `SSEOptimizer.create_optimized_generator`.  When the flag is off the
original generator is returned unchanged.  When it is on, the inner loop
buffers chunks and calls `_flush_buffer_smoothly(...)` — a generator
function whose returned generator object is never iterated — so the
optimized generator yields nothing at all. -/
def sseCreateOptimizedGenerator (evs : List Str) : List Str :=
  if ¬ sseEnableOptimization then evs
  else []

/-- The call site of `src/app/server_final.py` lines 190-193. -/
def serverFinalApplyOptimizer (ua : Str) (evs : List Str) : List Str :=
  if sseShouldOptimize ua then sseCreateOptimizedGenerator evs else evs

/-! ## SSE State Machine (`FixedSSEGenerator.generate_fixed_sse_stream`)

The upstream is a status code (`none` when the response object has no
`status_code` attribute) plus the raw lines of the body.  Events carry the
fields the claims are about (type, index, delta kind, stop reason); payload
strings such as tool names and ids, which no claim inspects, are omitted.
Python exceptions inside the generator loop are caught at the outermost
`try` (line 587) and turn into a `stream_error` event plus `[DONE]`. -/

/-- Content-block kind. -/
inductive BlockType where
  | text
  | toolUse
deriving DecidableEq

/-- Delta kind. -/
inductive DeltaType where
  | textDelta
  | inputJsonDelta
deriving DecidableEq

/-- One emitted SSE event. -/
inductive SSEEvent where
  | messageStart
  | blockStart (idx : Json) (btype : BlockType)
  | blockDelta (idx : Json) (dtype : DeltaType) (content : Json)
  | blockStop (idx : Json)
  | messageDelta (stopReason : Json)
  | messageStop
  | errorEvt (etype : Str)
  | done

/-- The mutable state of the generator loop. -/
structure GenState where
  textStarted : Bool
  textFinished : Bool
  toolStarted : Bool
  nextIdx : Nat
  curText : Option Nat
  curTool : Option Json
  lastFnDelta : Option Json
  uuidCtr : Nat

/-- Initial state (`message_start` consumed the first uuid). -/
def initGenState : GenState :=
  ⟨false, false, false, 0, none, none, none, 1⟩

/-- `self.current_text_block` as a JSON index value (`None` → `null`). -/
def idxText : Option Nat → Json
  | some n => .num (natStr n)
  | none => .null

/-- `self.current_tool_block` as a JSON index value. -/
def idxTool : Option Json → Json
  | some j => j
  | none => .null

/-- `_create_rate_limit_error_stream` (also used, with a different error
text, by the no-`choices` branch of the aggregation path): a full text
block, `message_delta{end_turn}`, `message_stop`, `[DONE]`.  The
`content_block_delta` index is hard-coded to `0`; the `content_block_stop`
index is the block index just assigned from `next_block_index`. -/
def shortTextStream (st : GenState) (msg : Json) : List SSEEvent :=
  [.blockStart (.num (natStr st.nextIdx)) .text,
   .blockDelta (.num "0".data) .textDelta msg,
   .blockStop (.num (natStr st.nextIdx)),
   .messageDelta (.str "end_turn".data),
   .messageStop,
   .done]

/-- The list of patterns probed on a non-`data:` line (the source checks
plain substring containment, so the two `.*`-looking entries are literal
text). -/
def rateLimitPatterns : List Str :=
  ["\"status\":\"429\"".data, "\"status\": \"429\"".data,
   "\"status\":\"449\"".data, "\"status\": \"449\"".data,
   "rate limit".data, "Rate limit".data,
   "exceeded.*limit".data, "limit.*exceeded".data]

/-- What processing a line will do, as far as it depends on the line
alone. -/
inductive DeltaAction where
  | toolCallsAct (entries : List Json)
  | fnCallAct (name args : Json)
  | textAct (t : Json)
  | noOp

/-- Classification of one upstream line. -/
inductive LineAction where
  | skipA
  | doneLine
  | rlShort (msg : Json)
  | errThenDone (code : Int) (msg : Json)
  | excStop
  | aggregate (rd : Json)
  | deltaAct (d : DeltaAction)

/-- Python `int(x)` for the value shapes that can reach it. -/
def pyIntOf (j : Json) : Except PyExc Int :=
  match j with
  | .str s =>
    let t := strip s
    match t with
    | '-' :: ds => if ds ≠ [] ∧ ds.all Char.isDigit then .ok (-(Int.ofNat (digitsToNat ds))) else .error .valueError
    | ds => if ds ≠ [] ∧ ds.all Char.isDigit then .ok (Int.ofNat (digitsToNat ds)) else .error .valueError
  | .num l =>
    match l with
    | '-' :: ds => if ds.all Char.isDigit then .ok (-(Int.ofNat (digitsToNat ds))) else .error .valueError
    | ds => if ds.all Char.isDigit then .ok (Int.ofNat (digitsToNat ds)) else .error .valueError
  | .bool b => .ok (if b then 1 else 0)
  | _ => .error .typeError
where
  digitsToNat (ds : Str) : Nat := ds.foldl (fun acc c => acc * 10 + (c.toNat - '0'.toNat)) 0

/-- `error_status in [449, 429]`-style numeric equality on a JSON value. -/
def jsonNumIs (j : Json) (n : Nat) : Bool :=
  match j with
  | .num l => l = natStr n
  | .bool _ => false
  | _ => false

/-- `max(1, output_tokens)`: raises unless the value is a number (or bool). -/
def pyMaxOk (j : Json) : Except PyExc Unit :=
  match j with
  | .num _ => .ok ()
  | .bool _ => .ok ()
  | _ => .error .typeError

/-- Extract the delta-level action from a parsed `delta` object
(`src/app/fixed_sse_generator.py` lines 479-564; the branch conditions
depend only on the payload). -/
def extractDelta (delta : Json) : Except PyExc LineAction := do
  let tcRaw ← pyGetD delta "tool_calls".data (.arr [])
  if truthy tcRaw then do
    let entries ← pyIter tcRaw
    pure (.deltaAct (.toolCallsAct entries))
  else do
    let fcRaw ← pyGet delta "function_call".data
    if truthy fcRaw then do
      let name ← pyGet fcRaw "name".data
      let args ← pyGet fcRaw "arguments".data
      pure (.deltaAct (.fnCallAct name args))
    else do
      let c ← pyGet delta "content".data
      let rc ← pyGet delta "reasoning_content".data
      pure (.deltaAct (.textAct (pyOr (pyOr c rc) (.str []))))

/-- Classification of a parsed `data:` payload (lines 412-473). -/
def classifyEvt (evt : Json) : LineAction :=
  let res : Except PyExc LineAction := do
    let hs ← pyContains evt "status".data
    let isErrShape ←
      if hs then do
        let h1 ← pyContains evt "msg".data
        if h1 then pure true else pyContains evt "message".data
      else pure false
    if isErrShape then do
      let status ← pyGetD evt "status".data (.str "429".data)
      let msgRaw ← pyGet evt "msg".data
      let message ←
        if truthy msgRaw then pure msgRaw
        else pyGetD evt "message".data (.str "Rate limit exceeded".data)
      let mLower ← pyLowerJ message
      let isRl := jsonBeq status (.str "429".data) ∨ jsonBeq status (.str "449".data) ∨
        infixOf "rate limit".data mLower ∨
        (infixOf "exceeded".data mLower ∧ infixOf "limit".data mLower)
      if isRl then pure (.rlShort message)
      else do
        let code ← pyIntOf status
        pure (.errThenDone code message)
    else do
      let choicesRaw ← pyGet evt "choices".data
      let choices := pyOr choicesRaw (.arr [])
      if ¬ truthy choices then pure .skipA
      else do
        let choice ← pyIndex0 choices
        let hd ← pyContains choice "delta".data
        if hd then do
          let deltaRaw ← pyGet choice "delta".data
          extractDelta (pyOr deltaRaw (.obj []))
        else do
          let hm ← pyContains choice "message".data
          if hm then do
            let m ← pyGetD choice "message".data (.obj [])
            let c ← pyGetD m "content".data (.str [])
            let content ← if truthy c then pure c else pyGetD m "reasoning_content".data (.str [])
            if truthy content then extractDelta (.obj [("content".data, content)])
            else extractDelta (.obj [])
          else extractDelta (.obj [])
  match res with
  | .ok a => a
  | .error _ => .excStop

/-- Classification of a `data:` payload string. -/
def classifyPayload (payload : Str) : LineAction :=
  if payload = "[DONE]".data then .doneLine
  else
    match jloads payload with
    | none => .skipA
    | some evt => classifyEvt evt

/-- The `'"choices"' in line and '"message"' in line` branch (lines
375-403): error envelopes become short error streams; everything else is
aggregated; any exception is caught and the line skipped. -/
def classifyChoicesLine (rd : Json) : LineAction :=
  match pyContains rd "error".data with
  | .error _ => .skipA
  | .ok true =>
    let res : Except PyExc LineAction := do
      let errorInfo ← pyGetItem rd "error".data
      let message ← pyGetD errorInfo "message".data (.str "Unknown error".data)
      let errStatus ← pyGetD errorInfo "status_code".data (.num "500".data)
      if jsonNumIs errStatus 449 ∨ jsonNumIs errStatus 429 then
        pure (.rlShort (.str "API rate limit exceeded, please try again later".data))
      else
        pure (.rlShort (.str ("API Error: ".data ++ pyStr message)))
    match res with
    | .ok a => a
    | .error _ => .skipA
  | .ok false => .aggregate rd

/-- Classification of one raw upstream line (lines 330-473). -/
def classifyLine (raw : Str) : LineAction :=
  let line := strip raw
  if ¬ startsWith "data:".data line then
    if rateLimitPatterns.any (fun p => infixOf p line) then
      match jloads line with
      | none => .rlShort (.str "Rate limit exceeded".data)
      | some v =>
        match v with
        | .obj kvs =>
          let msg := (objLookup kvs "msg".data).getD (.str "Rate limit exceeded".data)
          let status := (objLookup kvs "status".data).getD (.str "429".data)
          if jsonBeq status (.str "429".data) ∨ jsonBeq status (.str "449".data) then
            .rlShort msg
          else
            -- no `continue`/`return` on this path: control falls through to
            -- `payload = line[5:].strip()` even though the line has no
            -- `data:` prefix
            classifyPayload (strip (line.drop 5))
        | _ => .rlShort (.str "Rate limit exceeded".data)
    else if infixOf "\"choices\"".data line ∧ infixOf "\"message\"".data line then
      match jloads line with
      | none => .skipA
      | some rd => classifyChoicesLine rd
    else .skipA
  else classifyPayload (strip (line.drop 5))

/-- Close an open text block, as done before starting a tool block. -/
def closeTextIfOpen (st : GenState) : List SSEEvent × GenState :=
  if st.textStarted ∧ ¬ st.textFinished then
    ([.blockStop (idxText st.curText)], { st with textFinished := true })
  else ([], st)

/-- The per-entry body of the `delta.tool_calls` loop (lines 481-513).
Returns the emitted events, the new state, and whether an exception was
raised: `function_delta` is read from the loop variable set by the *first*
entry ever processed, so if the tool block was opened by a legacy
`function_call` the name is unbound and a `NameError` aborts the
generator; a truthy non-string `arguments` value raises `TypeError` at
`accumulated_tool_args += args_chunk` (line 507) *before* the delta is
yielded. -/
def stepToolEntries (fresh : Nat → Str) (st : GenState) :
    List Json → List SSEEvent × GenState × Bool
  | [] => ([], st, false)
  | tcd :: rest =>
    let (evs0, st0) := closeTextIfOpen st
    let startRes : Except PyExc (List SSEEvent × GenState) :=
      if ¬ st0.toolStarted then do
        let st1 := { st0 with toolStarted := true }
        let fd ← pyGetD tcd "function".data (.obj [])
        let name ← pyGetD fd "name".data (.str [])
        let _tid ← pyGetD tcd "id".data (.str ("tool_".data ++ (fresh st1.uuidCtr).take 24))
        let st2 := { st1 with lastFnDelta := some fd, uuidCtr := st1.uuidCtr + 1 }
        if truthy name then
          .ok ([.blockStart (.num (natStr st2.nextIdx)) .toolUse],
               { st2 with nextIdx := st2.nextIdx + 1,
                          curTool := some (.num (natStr st2.nextIdx)) })
        else .ok ([], st2)
      else .ok ([], st0)
    match startRes with
    | .error _ => (evs0, st0, true)
    | .ok (evs1, st1) =>
      match st1.lastFnDelta with
      | none => (evs0 ++ evs1, st1, true)
      | some fd =>
        match pyGetD fd "arguments".data (.str []) with
        | .error _ => (evs0 ++ evs1, st1, true)
        | .ok args =>
          if truthy args then
            match args with
            | .str s =>
              let (evsR, stR, exc) := stepToolEntries fresh st1 rest
              (evs0 ++ evs1 ++
                 [SSEEvent.blockDelta (idxTool st1.curTool) .inputJsonDelta (.str s)] ++ evsR,
               stR, exc)
            | _ => (evs0 ++ evs1, st1, true)
          else
            let (evsR, stR, exc) := stepToolEntries fresh st1 rest
            (evs0 ++ evs1 ++ evsR, stR, exc)

/-- The legacy `delta.function_call` branch (lines 516-547).  A truthy
non-string `arguments` raises `TypeError` at
`accumulated_tool_args += args_chunk` (line 541) before the delta is
yielded. -/
def stepFnCall (fresh : Nat → Str) (st : GenState) (name args : Json) :
    List SSEEvent × GenState × Bool :=
  if truthy name then
    let (evs0, st0) := closeTextIfOpen st
    let (evs1, st1) :=
      if ¬ st0.toolStarted then
        ([SSEEvent.blockStart (.num (natStr st0.nextIdx)) .toolUse],
         { st0 with toolStarted := true, uuidCtr := st0.uuidCtr + 1,
                    nextIdx := st0.nextIdx + 1,
                    curTool := some (.num (natStr st0.nextIdx)) })
      else ([], st0)
    let args' := pyOr args (.str [])
    if truthy args' then
      match args' with
      | .str s =>
        (evs0 ++ evs1 ++
           [SSEEvent.blockDelta (idxTool st1.curTool) .inputJsonDelta (.str s)], st1, false)
      | _ => (evs0 ++ evs1, st1, true)
    else (evs0 ++ evs1, st1, false)
  else ([], st, false)

/-- The text branch (lines 549-564).  A truthy non-string content delta
raises `TypeError` at `accumulated_text += text_delta` (line 558) after
the `content_block_start` but before the `content_block_delta` is
yielded. -/
def stepText (st : GenState) (t : Json) : List SSEEvent × GenState × Bool :=
  if truthy t then
    let (evs1, st1) :=
      if ¬ st.textStarted then
        ([SSEEvent.blockStart (.num (natStr st.nextIdx)) .text],
         { st with textStarted := true, nextIdx := st.nextIdx + 1,
                   curText := some st.nextIdx })
      else ([], st)
    match t with
    | .str s =>
      (evs1 ++ [.blockDelta (idxText st1.curText) .textDelta (.str s)], st1, false)
    | _ => (evs1, st1, true)
  else ([], st, false)

/-- Step 3 of the generator: close every open block, then
`message_delta` / `message_stop` / `[DONE]` (lines 566-585). -/
def closingEvents (st : GenState) : List SSEEvent :=
  (if st.textStarted ∧ ¬ st.textFinished then [SSEEvent.blockStop (idxText st.curText)] else [])
  ++ (if st.toolStarted then [SSEEvent.blockStop (idxTool st.curTool)] else [])
  ++ [.messageDelta (.str (if st.toolStarted then "tool_use".data else "end_turn".data)),
      .messageStop, .done]

/-- The tool-call loop of `_process_non_streaming_response` (lines
237-273): per call, a `content_block_start` (with the upstream `index` when
present, else the next sequential index), an `input_json_delta` carrying
the whole argument string, and a `content_block_stop` — the latter two
always use the raw `original_index` (which is `null` when absent). -/
def pnsToolLoop (fresh : Nat → Str) (st : GenState) :
    List Json → List SSEEvent × GenState × Bool
  | [] => ([], st, false)
  | tc :: rest =>
    let res : Except PyExc (List SSEEvent × GenState) := do
      let oi ← pyGet tc "index".data
      let fi ← pyGetD tc "function".data (.obj [])
      let _name ← pyGetD fi "name".data (.str [])
      let _tid ← pyGetD tc "id".data (.str ("tool_".data ++ (fresh st.uuidCtr).take 24))
      let args ← pyGetD fi "arguments".data (.str (lbr :: [rbr]))
      let (startEvt, st1) :=
        if ¬ jsonBeq oi .null then
          ([SSEEvent.blockStart oi .toolUse],
           { st with curTool := some oi, uuidCtr := st.uuidCtr + 1 })
        else
          ([SSEEvent.blockStart (.num (natStr st.nextIdx)) .toolUse],
           { st with nextIdx := st.nextIdx + 1,
                     curTool := some (.num (natStr st.nextIdx)),
                     uuidCtr := st.uuidCtr + 1 })
      let deltaEvt :=
        if truthy args then [SSEEvent.blockDelta oi .inputJsonDelta args] else []
      .ok (startEvt ++ deltaEvt ++ [SSEEvent.blockStop oi], st1)
    match res with
    | .error _ => ([], st, true)
    | .ok (evs, st1) =>
      let (evsR, stR, exc) := pnsToolLoop fresh st1 rest
      (evs ++ evsR, stR, exc)

/-- `_process_non_streaming_response` (lines 197-286).  A raised exception
is caught at the call site (line 401) and the outer loop continues with
the mutated state: the second component is `some st'` in that case and
`none` when the stream was completed (the generator `return`s). -/
def pnsRun (fresh : Nat → Str) (st : GenState) (rd : Json) :
    List SSEEvent × Option GenState :=
  match pyGetD rd "choices".data (.arr []) with
  | .error _ => ([], some st)
  | .ok choices =>
    if ¬ truthy choices then
      (shortTextStream st (.str "上游API返回了无效的响应格式".data), none)
    else
      match pyIndex0 choices with
      | .error _ => ([], some st)
      | .ok choice =>
        match (do
          let message ← pyGetD choice "message".data (.obj [])
          let c ← pyGetD message "content".data (.str [])
          let rc ← pyGetD message "reasoning_content".data (.str [])
          let toolCalls ← pyGetD message "tool_calls".data (.arr [])
          Except.ok (pyOr c rc, toolCalls) : Except PyExc (Json × Json)) with
        | .error _ => ([], some st)
        | .ok (content, toolCalls) =>
          let (evsText, st1) :=
            if truthy content then
              ([SSEEvent.blockStart (.num (natStr st.nextIdx)) .text,
                .blockDelta (.num "0".data) .textDelta content,
                .blockStop (.num (natStr st.nextIdx))],
               { st with nextIdx := st.nextIdx + 1, curText := some st.nextIdx })
            else ([], st)
          let toolRes : List SSEEvent × GenState × Bool :=
            if truthy toolCalls then
              match pyIter toolCalls with
              | .error _ => ([], st1, true)
              | .ok entries => pnsToolLoop fresh st1 entries
            else ([], st1, false)
          match toolRes with
          | (evsTools, st2, true) => (evsText ++ evsTools, some st2)
          | (evsTools, st2, false) =>
            match (do
              let usage ← pyGetD rd "usage".data (.obj [])
              let ot ← pyGetD usage "completion_tokens".data (.num "1".data)
              pyMaxOk ot
              let sr ← pyGetD choice "finish_reason".data
                (if truthy toolCalls then .str "tool_use".data else .str "end_turn".data)
              Except.ok sr : Except PyExc Json) with
            | .error _ => (evsText ++ evsTools, some st2)
            | .ok sr =>
              (evsText ++ evsTools ++ [.messageDelta sr, .messageStop, .done], none)

/-- The main line-processing loop (step 2) followed by the closing step. -/
def goLines (fresh : Nat → Str) (st : GenState) : List Str → List SSEEvent
  | [] => closingEvents st
  | raw :: rest =>
    match classifyLine raw with
    | .skipA => goLines fresh st rest
    | .doneLine => closingEvents st
    | .rlShort msg =>
      shortTextStream st (.str ("[错误] ".data ++ pyStr msg ++ "，请稍后重试".data))
    | .errThenDone code _msg =>
      [.errorEvt (if code = 429 then "rate_limit_error".data else "api_error".data), .done]
    | .excStop => [.errorEvt "stream_error".data, .done]
    | .aggregate rd =>
      match pnsRun fresh st rd with
      | (evs, none) => evs
      | (evs, some st') => evs ++ goLines fresh st' rest
    | .deltaAct d =>
      match d with
      | .noOp => goLines fresh st rest
      | .textAct t =>
        match stepText st t with
        | (evs, _, true) => evs ++ [.errorEvt "stream_error".data, .done]
        | (evs, st', false) => evs ++ goLines fresh st' rest
      | .fnCallAct n a =>
        match stepFnCall fresh st n a with
        | (evs, _, true) => evs ++ [.errorEvt "stream_error".data, .done]
        | (evs, st', false) => evs ++ goLines fresh st' rest
      | .toolCallsAct es =>
        match stepToolEntries fresh st es with
        | (evs, _, true) => evs ++ [.errorEvt "stream_error".data, .done]
        | (evs, st', false) => evs ++ goLines fresh st' rest

/-- `FixedSSEGenerator.generate_fixed_sse_stream`: `message_start` first,
then either the status-code error handling (429/449 → rate-limit short
path; any other non-200 → a single `error` event and `return`, with no
`[DONE]`) or the line loop. -/
def generateFixedSSEStream (fresh : Nat → Str) (status : Option Nat)
    (lines : List Str) : List SSEEvent :=
  SSEEvent.messageStart ::
    (match status with
     | some s =>
       if s ≠ 200 then
         if s = 429 ∨ s = 449 then
           shortTextStream initGenState
             (.str ("[错误] ".data ++ "Rate limit exceeded".data ++ "，请稍后重试".data))
         else [.errorEvt "api_error_status".data]
       else goLines fresh initGenState lines
     | none => goLines fresh initGenState lines)

/-! ## SSE well-formedness automaton

`sseWF` is the formalisation of the specification's regular expression
`message_start (content_block_start content_block_delta* content_block_stop)*
message_delta message_stop [DONE]`, strengthened with the association
requirement of the claim: every `content_block_delta` carries the index of
the currently open block (hence none appears before its block's start or
after its stop). -/

/-- Small-step run of the block automaton over an event fragment: the
resulting open-block state, `none` when the fragment is ill-formed. -/
def wfRun : Option Json → List SSEEvent → Option (Option Json)
  | o, [] => some o
  | none, .blockStart i _ :: r => wfRun (some i) r
  | some i, .blockDelta j _ _ :: r => if jsonBeq i j then wfRun (some i) r else none
  | some i, .blockStop j :: r => if jsonBeq i j then wfRun none r else none
  | _, _ => none

/-- Field lookup on an object-shaped value. -/
def getField (j : Json) (k : Str) : Option Json :=
  match j with
  | .obj kvs => objLookup kvs k
  | _ => none

/-- Lowercase hexadecimal digit. -/
def isHexLower (c : Char) : Bool := c.isDigit ∨ ('a' ≤ c ∧ c ≤ 'f')

/-- The id format of the specification: `^msg_[a-f0-9]{1,}$`. -/
def matchesMsgId (s : Str) : Bool :=
  "msg_".data.isPrefixOf s ∧ ¬ (s.drop 4).isEmpty ∧ (s.drop 4).all isHexLower

/-- Does a converted response contain a `tool_use` content part? -/
def contentHasToolUse (r : Json) : Bool :=
  match getField r "content".data with
  | some (.arr parts) =>
    parts.any fun p =>
      match getField p "type".data with
      | some (.str t) => t = "tool_use".data
      | _ => false
  | _ => false

/-- The concatenated text of the `text` parts of a converted response. -/
def responseConcatText (r : Json) : Str :=
  match getField r "content".data with
  | some (.arr parts) =>
    parts.foldr
      (fun p acc =>
        (match getField p "type".data, getField p "text".data with
         | some (.str t), some (.str s) => if t = "text".data then s else []
         | _, _ => []) ++ acc) []
  | _ => []

/-- The text carried by one Anthropic message whose content is a string or
a list of `text` parts; `none` for any other shape. -/
def extractText (m : Json) : Option Str :=
  match getField m "content".data with
  | some (.str s) => some s
  | some (.arr items) => itemsText items
  | _ => none
where
  itemsText : List Json → Option Str
    | [] => some []
    | it :: rest =>
      match getField it "type".data, getField it "text".data with
      | some (.str t), some (.str s) =>
        if t = "text".data then (itemsText rest).map (s ++ ·) else none
      | _, _ => none

/-- The texts of a request all of whose messages carry only text. -/
def reqTexts : List Json → Option (List Str)
  | [] => some []
  | m :: rest => do
    let s ← extractText m
    let rest' ← reqTexts rest
    some (s :: rest')

/-- Concatenation. -/
def concatAll : List Str → Str := List.foldr (· ++ ·) []

/-- The concatenation of the `content` strings of the translated upstream
messages — what an echoing upstream sends back. -/
def mirrorText (oms : List Json) : Str :=
  oms.foldr
    (fun om acc =>
      (match getField om "content".data with
       | some (.str s) => s
       | _ => []) ++ acc) []

/-- A simulated echo upstream: a single-choice completion whose assistant
message mirrors the request content. -/
def echoUpstream (oms : List Json) : Json :=
  .obj
    [("id".data, .str "echo".data),
     ("choices".data, .arr
       [.obj
         [("message".data, .obj
           [("role".data, .str "assistant".data),
            ("content".data, .str (mirrorText oms))]),
          ("finish_reason".data, .str "stop".data)]]),
     ("usage".data, .obj
       [("prompt_tokens".data, .num "0".data),
        ("completion_tokens".data, .num "0".data)])]

/-- Round trip: translate the request messages, let the echo upstream
mirror them, convert the reply back, and read the concatenated text. -/
def roundTripEcho (fresh : Nat → Str) (msgs : List Json) : Except PyExc Str := do
  let oms ← liteConvertMessages msgs
  let resp ← liteConvertResponse fresh (echoUpstream oms)
  .ok (responseConcatText resp)

/-- A fixed uuid-hex stream for concrete evaluations. -/
def cFresh : Nat → Str := fun _ => "0123456789abcdef0123456789abcdef".data

/-- C3 failing input: the upstream answers with a text-embedded tool call
and `finish_reason: "stop"`. -/
def c3FailingInput : Json :=
  .obj
    [("id".data, .str "chat-1".data),
     ("choices".data, .arr
       [.obj
         [("message".data, .obj
           [("content".data,
             .str "<function=get_time><parameter=x>1</parameter></function>".data)]),
          ("finish_reason".data, .str "stop".data)]])]

/-- C3 failing input for the SSE aggregation path: a complete JSON reply
with a structured tool call and `finish_reason: "tool_calls"`. -/
def c3AggLine : Str :=
  "\x7b\"choices\":[\x7b\"message\":\x7b\"content\":null,\"tool_calls\":[\x7b\"index\":0,\"id\":\"t1\",\"function\":\x7b\"name\":\"f\",\"arguments\":\"\x7b\x7d\"\x7d\x7d]\x7d,\"finish_reason\":\"tool_calls\"\x7d],\"usage\":\x7b\"completion_tokens\":1\x7d\x7d".data

/-- C4 counterexample input: the upstream id is the literal `chat-`. -/
def c4CounterInput : Json :=
  .obj
    [("id".data, .str "chat-".data),
     ("choices".data, .arr
       [.obj [("message".data, .obj [("content".data, .str "hi".data)])]])]

/-- The OpenAI role computed by `convert_messages` for a message dict. -/
def liteOpenaiRole (kvs : List (Str × Json)) : Json :=
  if jsonBeq ((objLookup kvs "role".data).getD (.str "user".data)) (.str "assistant".data)
  then .str "assistant".data else .str "user".data

/-- The `id` field of a converted response, `none` when the conversion
raised. -/
def respIdOf (e : Except PyExc Json) : Option Json :=
  match e with
  | .ok r => getField r "id".data
  | .error _ => none

/-- A named field of a converted response, `none` when the conversion
raised. -/
def respFieldOf (e : Except PyExc Json) (k : Str) : Option Json :=
  match e with
  | .ok r => getField r k
  | .error _ => none

/-- Is an event a `content_block_start` of a `tool_use` block? -/
def isToolUseStart (e : SSEEvent) : Bool :=
  match e with
  | .blockStart _ .toolUse => true
  | _ => false

/-- The stop reason carried by the first `message_delta` of a stream. -/
def streamStopReason : List SSEEvent → Option Json
  | [] => none
  | .messageDelta sr :: _ => some sr
  | _ :: r => streamStopReason r

/-- C4 witness input: an upstream id of the form `chat-X`. -/
def c4WitnessInput : Json :=
  .obj
    [("id".data, .str "chat-42".data),
     ("choices".data, .arr
       [.obj [("message".data, .obj [("content".data, .str "hi".data)])]])]

/-- The response `LiteConverter.convert_response` produces on the C4
witness input. -/
def c4WitnessResp : Json :=
  (liteConvertResponse cFresh c4WitnessInput).toOption.getD .null

/-- The response `AnthropicToOpenAIConverter.convert_response` produces on
the C4 witness input. -/
def c4WitnessRespC : Json :=
  (classConvertResponse c4WitnessInput).toOption.getD .null

/-- C5 counterexample request: the only text happens to spell a dialect-1
tool invocation. -/
def c5CounterMsgs : List Json :=
  [.obj
    [("role".data, .str "user".data),
     ("content".data, .str "<function=f><parameter=k>v</parameter></function>".data)]]

/-- C5 witness request. -/
def c5WitnessMsgs : List Json :=
  [.obj
    [("role".data, .str "user".data),
     ("content".data, .str "Say hi".data)]]

/-- C8 counterexample text: a dialect-5 tool call with a dotted name. -/
def c8CounterText : Str :=
  "[\x7b\"name\": \"a.b\", \"arguments\": \x7b\"x\": 1\x7d\x7d]".data

/-- A request for the coalescing scenario. -/
def c6Req : Json :=
  .obj
    [("model".data, .str "claude-3-haiku-20240307".data),
     ("messages".data, .arr
       [.obj [("role".data, .str "user".data), ("content".data, .str "Say hi".data)]])]

/-- A cached upstream body for the coalescing scenario. -/
def c6Body : Json := .obj [("x".data, .num "1".data)]

/-- `normalizedUserView` groups the steps of `_generate_request_hash` that
read the messages (lines 253-273): everything the fingerprint depends on
besides `model` and `tools`. -/
def normalizedUserView (req : Json) : Except PyExc (List Json) := do
  let messagesRaw ← pyGetD req "messages".data (.arr [])
  let msgs ← pyIter messagesRaw
  processedUserMessages msgs

/-! # Theorems -/

theorem exbind_ok {α β : Type} (a : α) (f : α → Except PyExc β) :
    (Except.ok a >>= f) = f a := rfl

theorem exbind_err {α β : Type} (e : PyExc) (f : α → Except PyExc β) :
    ((Except.error e : Except PyExc α) >>= f) = Except.error e := rfl

theorem exbind_ok_inv {α β : Type} (e : Except PyExc α) (f : α → Except PyExc β) (b : β)
    (h : (e >>= f) = .ok b) : ∃ a, e = .ok a ∧ f a = .ok b := by
  cases e with
  | error ex => simp [exbind_err] at h
  | ok a => exact ⟨a, rfl, h⟩

mutual

theorem jsonBeq_refl : (j : Json) → jsonBeq j j = true
  | .null => rfl
  | .bool b => by cases b <;> rfl
  | .num l => by simp [jsonBeq]
  | .str s => by simp [jsonBeq]
  | .arr xs => by simp [jsonBeq, jsonBeqList_refl xs]
  | .obj kvs => by simp [jsonBeq, jsonBeqKvs_refl kvs]

theorem jsonBeqList_refl : (xs : List Json) → jsonBeq.jsonBeqList xs xs = true
  | [] => rfl
  | x :: xs => by simp [jsonBeq.jsonBeqList, jsonBeq_refl x, jsonBeqList_refl xs]

theorem jsonBeqKvs_refl : (kvs : List (Str × Json)) → jsonBeq.jsonBeqKvs kvs kvs = true
  | [] => rfl
  | (k, v) :: kvs => by simp [jsonBeq.jsonBeqKvs, jsonBeq_refl v, jsonBeqKvs_refl kvs]

end

/-! ## C9: the pacing layers preserve the event sequence -/

theorem emittedOf_simpleLoop (evs : List Str) :
    ∀ count, emittedOf (simpleOptimizeLoop count evs) = evs := by
  induction evs with
  | nil => intro count; rfl
  | cons d rest ih =>
    intro count
    by_cases h : count + 1 < 10 <;>
      simp [simpleOptimizeLoop, emittedOf, h, emittedOf_simpleLoop, ih (count + 1),
        List.filterMap_cons, List.filterMap_append] <;>
      exact ih (count + 1)

/-- **C9.** For every event sequence and every User-Agent, the pacing
layer that is enabled (`SimpleSSEOptimizer.optimize_stream`) emits exactly
the events of the original generator, in order (it only interleaves
sleeps); the `SSEOptimizer` path is disabled, so `should_optimize` is
`false` even for terminal-UI clients and the server returns the original
generator unchanged. -/
theorem C9_pacing_preserves_events (ua : Str) (evs : List Str) :
    (simpleShouldOptimize ua = true → emittedOf (simpleOptimizeStream evs) = evs) ∧
    serverFinalApplyOptimizer ua evs = evs ∧
    sseShouldOptimize ua = false := by
  refine ⟨fun _ => ?_, ?_, ?_⟩
  · simp [simpleOptimizeStream, simpleEnabled, emittedOf_simpleLoop]
  · simp [serverFinalApplyOptimizer, sseShouldOptimize, sseEnableOptimization]
  · simp [sseShouldOptimize, sseEnableOptimization]

/-- **C9 witness**: a terminal-UI User-Agent (`claude-cli/1.0`) with the S3
event chunks. -/
theorem C9_pacing_preserves_events_witness :
    simpleShouldOptimize "claude-cli/1.0".data = true ∧
    emittedOf (simpleOptimizeStream ["a".data, "b".data, "c".data]) =
      ["a".data, "b".data, "c".data] := by
  constructor
  · decide
  · exact (C9_pacing_preserves_events "claude-cli/1.0".data
      ["a".data, "b".data, "c".data]).1 (by decide)

/-! ## C2: status collapse of 429/449 -/

/-- **C2 counterexample**: an upstream 449 whose body carries no `TPM`/`RPM`
marker is surfaced as `api_error` with downstream status 449, not as a 429
`rate_limit_error`; and the streaming branch delivers error streams with
outer status 200. -/
theorem C2_counterexample :
    apiServerNon200 449 "upstream busy".data = ("api_error".data, 449) ∧
    (449 : Nat) ≠ 429 ∧
    appServerStreamErrorStatus 449 = 200 := by
  refine ⟨by decide, by decide, rfl⟩

/-- **C2 amended.** An upstream 429, or a body containing `TPM` or `RPM`,
yields downstream status 429 classified `rate_limit_error`, but with no
`retry-after`/`anthropic-ratelimit-*` headers; any other upstream status —
449 included — is passed through as `api_error`; and in SSE mode
(`src/app/server.py`) an upstream error is rewritten as an error stream
delivered with outer HTTP status 200. -/
theorem C2_amended (s : Nat) (t : Str) :
    (s = 429 ∨ infixOf "TPM".data t = true ∨ infixOf "RPM".data t = true →
      apiServerNon200 s t = ("rate_limit_error".data, 429) ∧
      apiServerNon200Headers s t = []) ∧
    (s ≠ 429 → infixOf "TPM".data t = false → infixOf "RPM".data t = false →
      apiServerNon200 s t = ("api_error".data, s)) ∧
    appServerStreamErrorStatus s = 200 ∧
    appServerNonStreamNon200 s t = ("api_error".data, s) := by
  refine ⟨fun h => ⟨?_, rfl⟩, fun h1 h2 h3 => ?_, rfl, rfl⟩
  · unfold apiServerNon200
    rcases h with h | h | h <;> simp [h]
  · unfold apiServerNon200
    simp [h1, h2, h3]

/-- **C2 witness**: upstream 449 with a `TPM` marker collapses to 429; a
plain 449 passes through. -/
theorem C2_amended_witness :
    apiServerNon200 449 "TPM limit reached".data = ("rate_limit_error".data, 429) ∧
    apiServerNon200 449 "busy".data = ("api_error".data, 449) := by
  constructor
  · exact ((C2_amended 449 "TPM limit reached".data).1 (Or.inr (Or.inl (by decide)))).1
  · exact (C2_amended 449 "busy".data).2.1 (by decide) (by decide) (by decide)

/-! ## C7: retry/backoff on rate limits -/

theorem infixOf_of_prefix {p q : Str} (s : Str) (hpq : p.isPrefixOf q = true) :
    infixOf q s = true → infixOf p s = true := by
  induction s with
  | nil =>
    intro h
    simp only [infixOf, findSub] at h ⊢
    split at h
    · rename_i hq
      subst hq
      have : p = [] := by
        cases p with
        | nil => rfl
        | cons a r => simp [List.isPrefixOf] at hpq
      simp [this]
    · simp at h
  | cons c rest ih =>
    intro h
    simp only [infixOf, findSub] at h ⊢
    by_cases hq : q.isPrefixOf (c :: rest) = true
    · have hp : p.isPrefixOf (c :: rest) = true := by
        have h1 := List.isPrefixOf_iff_prefix.mp hpq
        have h2 := List.isPrefixOf_iff_prefix.mp hq
        exact List.isPrefixOf_iff_prefix.mpr (h1.trans h2)
      simp [hp]
    · simp only [hq, if_neg, Bool.false_eq_true, ite_false] at h
      by_cases hp : p.isPrefixOf (c :: rest) = true
      · simp [hp]
      · simp only [hp, ite_false, Bool.false_eq_true]
        have := ih (by simpa using h)
        simpa using this

theorem rate_limited_absorbed (t : Str) :
    infixOf "rate limited".data t = true → infixOf "rate limit".data t = true :=
  infixOf_of_prefix t (by decide)

/-- The code's indicator scan agrees with the specification's six markers:
the code's extra `rate limited` entry is subsumed by `rate limit`. -/
theorem markers_equiv (t : Str) :
    (rlIndicators.any fun m => infixOf m (strLower t)) =
    (specMarkers.any fun m => infixOf m (strLower t)) := by
  simp only [rlIndicators, specMarkers, List.any_cons, List.any_nil]
  by_cases h : infixOf "rate limited".data (strLower t) = true
  · have := rate_limited_absorbed _ h
    simp [h, this]
  · simp only [Bool.not_eq_true] at h
    simp [h]

theorem hrlAux_progress (call : Nat → UpResponse) (jitter : Nat → ℚ)
    (a rem : Nat) (hrl : isRateLimitErr (call a) = true) (hs : (call a).status ≠ 200) :
    hrlAux call jitter a (rem + 1) =
      let r := hrlAux call jitter (a + 1) rem
      (r.1, min ((2 : ℚ) ^ a + jitter a) 30 :: r.2.1, r.2.2) := by
  simp [hrlAux, hrl, hs]

theorem hrlAux_stop (call : Nat → UpResponse) (jitter : Nat → ℚ)
    (a rem : Nat) (h : (call a).status = 200 ∨ isRateLimitErr (call a) = false) :
    hrlAux call jitter a rem = (call a, [], a + 1) := by
  cases rem <;>
    · unfold hrlAux
      rcases h with h | h <;> simp [h]

theorem hrlAux_exhaust (call : Nat → UpResponse) (jitter : Nat → ℚ)
    (a : Nat) (hrl : isRateLimitErr (call a) = true) (hs : (call a).status ≠ 200) :
    hrlAux call jitter a 0 = (call a, [], a + 1) := by
  simp [hrlAux, hrl, hs]

/-- **C7 counterexample.** The claim says a call whose body contains a
rate-limit marker is retried; but a response with HTTP status 200 is
returned immediately even when its body contains the marker
`rate limit` — the code checks `status == 200 or not is_rate_limit_error`. -/
theorem C7_counterexample :
    handleRateLimitWithBackoff (fun _ => ⟨200, "a rate limit notice".data⟩) (fun _ => 0) 3 =
      (⟨200, "a rate limit notice".data⟩, [], 1) ∧
    infixOf "rate limit".data (strLower "a rate limit notice".data) = true := by
  constructor
  · rfl
  · decide

/-- **C7 amended.** A call whose status is 429, or whose status is not 200
and whose body contains a marker, is retried up to 3 times with sleeps
`min(2^(k-1) + U(0.1,0.5), 30)` before the `k`-th retry; the first
response that is 200 or carries no rate-limit signature is returned
immediately; when all four calls are rate-limited the fourth (last)
response is returned unchanged after three sleeps.  The marker scan of the
code is equivalent to the specification's six markers. -/
theorem C7_amended (call : Nat → UpResponse) (jitter : Nat → ℚ) :
    (∀ m, m ≤ 3 →
      (∀ i, i < m → isRateLimitErr (call i) = true ∧ (call i).status ≠ 200) →
      ((call m).status = 200 ∨ isRateLimitErr (call m) = false) →
      handleRateLimitWithBackoff call jitter 3 =
        (call m, (List.range m).map (fun k => min ((2 : ℚ) ^ k + jitter k) 30), m + 1)) ∧
    ((∀ i, i ≤ 3 → isRateLimitErr (call i) = true ∧ (call i).status ≠ 200) →
      handleRateLimitWithBackoff call jitter 3 =
        (call 3,
         [min ((2 : ℚ) ^ 0 + jitter 0) 30, min ((2 : ℚ) ^ 1 + jitter 1) 30,
          min ((2 : ℚ) ^ 2 + jitter 2) 30], 4)) ∧
    (∀ r : UpResponse,
      isRateLimitErr r = (r.status = 429 ∨ ∃ mk ∈ specMarkers, infixOf mk (strLower r.text) = true : Bool)) := by
  refine ⟨?_, ?_, ?_⟩
  · intro m hm hpre hstop
    unfold handleRateLimitWithBackoff
    interval_cases m
    · exact hrlAux_stop call jitter 0 3 hstop
    · rw [hrlAux_progress call jitter 0 2 (hpre 0 (by omega)).1 (hpre 0 (by omega)).2]
      rw [hrlAux_stop call jitter 1 2 hstop]
      simp [List.range_succ]
    · rw [hrlAux_progress call jitter 0 2 (hpre 0 (by omega)).1 (hpre 0 (by omega)).2]
      rw [hrlAux_progress call jitter 1 1 (hpre 1 (by omega)).1 (hpre 1 (by omega)).2]
      rw [hrlAux_stop call jitter 2 1 hstop]
      simp [List.range_succ]
    · rw [hrlAux_progress call jitter 0 2 (hpre 0 (by omega)).1 (hpre 0 (by omega)).2]
      rw [hrlAux_progress call jitter 1 1 (hpre 1 (by omega)).1 (hpre 1 (by omega)).2]
      rw [hrlAux_progress call jitter 2 0 (hpre 2 (by omega)).1 (hpre 2 (by omega)).2]
      rw [hrlAux_stop call jitter 3 0 hstop]
      simp [List.range_succ]
  · intro hall
    unfold handleRateLimitWithBackoff
    rw [hrlAux_progress call jitter 0 2 (hall 0 (by omega)).1 (hall 0 (by omega)).2]
    rw [hrlAux_progress call jitter 1 1 (hall 1 (by omega)).1 (hall 1 (by omega)).2]
    rw [hrlAux_progress call jitter 2 0 (hall 2 (by omega)).1 (hall 2 (by omega)).2]
    rw [hrlAux_exhaust call jitter 3 (hall 3 (by omega)).1 (hall 3 (by omega)).2]
  · intro r
    unfold isRateLimitErr
    rw [markers_equiv]
    rw [decide_eq_decide]
    simp [List.any_eq_true]

/-- **C7 witness**: one 429 then a clean 200 — one sleep of
`min(1 + 0.3, 30)`, two calls, the 200 returned. -/
theorem C7_amended_witness :
    handleRateLimitWithBackoff
      (fun i => if i = 0 then ⟨429, "busy".data⟩ else ⟨200, "ok".data⟩)
      (fun _ => (3 : ℚ) / 10) 3 =
      (⟨200, "ok".data⟩, [min ((2 : ℚ) ^ 0 + 3 / 10) 30], 2) := by
  have h := (C7_amended
    (fun i => if i = 0 then ⟨429, "busy".data⟩ else ⟨200, "ok".data⟩)
    (fun _ => (3 : ℚ) / 10)).1 1 (by omega)
    (fun i hi => by
      interval_cases i
      exact ⟨by decide, by decide⟩)
    (Or.inl (by decide))
  simpa [List.range_succ] using h

/-! ## C10: the request fingerprint is a function of (model, user texts, tools) -/

theorem generateRequestHash_view (req : Json) :
    generateRequestHash req = (do
      let processed ← normalizedUserView req
      let model ← pyGet req "model".data
      let tools ← pyGet req "tools".data
      Except.ok (md5hex (utf8Encode (jdumpsCanonical (.obj
        [("model".data, model),
         ("messages".data, .arr processed),
         ("tools".data, tools)]))))) := by
  unfold generateRequestHash normalizedUserView
  cases pyGetD req "messages".data (.arr []) with
  | error e => rfl
  | ok v =>
    simp only [exbind_ok]
    cases pyIter v with
    | error e => rfl
    | ok msgs => simp only [exbind_ok]

theorem objLookup_insert_ne (kvs : List (Str × Json)) (k k' : Str) (v : Json)
    (h : k' ≠ k) : objLookup (objInsert kvs k v) k' = objLookup kvs k' := by
  have hkk' : ¬ k = k' := fun hh => h hh.symm
  induction kvs with
  | nil => simp [objInsert, objLookup, hkk']
  | cons kv rest ih =>
    obtain ⟨k1, v1⟩ := kv
    by_cases hk : k1 = k
    · simp [objInsert, objLookup, hk, hkk']
    · simp [objInsert, objLookup, hk, ih]

/-- **C10.** The MD5 fingerprint depends only on the model field, the tools
field, and the normalised user-message view (user messages with list
contents replaced by their concatenated text): (a) two requests that agree
on those three projections hash identically; (b) adding or changing any
top-level field other than `model`/`messages`/`tools` — `system`,
`max_tokens`, `temperature`, `stream` included — leaves the fingerprint
unchanged; (c) a message whose role is not `user` does not contribute to
the normalised view, wherever it sits. -/
theorem C10_fingerprint_depends_only_on_view :
    (∀ r1 r2 : Json,
      pyGet r1 "model".data = pyGet r2 "model".data →
      pyGet r1 "tools".data = pyGet r2 "tools".data →
      normalizedUserView r1 = normalizedUserView r2 →
      generateRequestHash r1 = generateRequestHash r2) ∧
    (∀ (kvs : List (Str × Json)) (k : Str) (v : Json),
      k ≠ "model".data → k ≠ "messages".data → k ≠ "tools".data →
      generateRequestHash (.obj (objInsert kvs k v)) = generateRequestHash (.obj kvs)) ∧
    (∀ (pre suf : List Json) (m rv : Json),
      pyGet m "role".data = .ok rv → jsonBeq rv (.str "user".data) = false →
      processedUserMessages (pre ++ m :: suf) = processedUserMessages (pre ++ suf)) := by
  refine ⟨?_, ?_, ?_⟩
  · intro r1 r2 hm ht hu
    rw [generateRequestHash_view r1, generateRequestHash_view r2, hm, ht, hu]
  · intro kvs k v hk1 hk2 hk3
    have h1 : pyGet (.obj (objInsert kvs k v)) "model".data = pyGet (.obj kvs) "model".data := by
      simp [pyGet, pyGetD, objLookup_insert_ne kvs k "model".data v (fun h => hk1 h.symm)]
    have h2 : pyGet (.obj (objInsert kvs k v)) "tools".data = pyGet (.obj kvs) "tools".data := by
      simp [pyGet, pyGetD, objLookup_insert_ne kvs k "tools".data v (fun h => hk3 h.symm)]
    have h3 : normalizedUserView (.obj (objInsert kvs k v)) = normalizedUserView (.obj kvs) := by
      unfold normalizedUserView
      simp [pyGetD, objLookup_insert_ne kvs k "messages".data v (fun h => hk2 h.symm)]
    rw [generateRequestHash_view, generateRequestHash_view, h1, h2, h3]
  · intro pre suf m rv hrole hne
    induction pre with
    | nil =>
      simp only [List.nil_append, processedUserMessages]
      rw [hrole]
      simp [exbind_ok, hne]
    | cons p rest ih =>
      simp only [List.cons_append, processedUserMessages, List.append_eq, ih]

/-- **C10 witness**: a request with `tool_result` parts, an assistant
message, and `system`/`stream` fields hashes like its bare text-only
core. -/
theorem C10_fingerprint_witness :
    generateRequestHash (.obj
      [("model".data, .str "m".data),
       ("messages".data, .arr
         [.obj [("role".data, .str "user".data),
                ("content".data, .arr
                  [.obj [("type".data, .str "tool_result".data),
                         ("tool_use_id".data, .str "t1".data)],
                   .obj [("type".data, .str "text".data),
                         ("text".data, .str "hi".data)]])],
          .obj [("role".data, .str "assistant".data),
                ("content".data, .str "ignored".data)]]),
       ("system".data, .str "sys".data),
       ("stream".data, .bool true)]) =
    generateRequestHash (.obj
      [("model".data, .str "m".data),
       ("messages".data, .arr
         [.obj [("role".data, .str "user".data),
                ("content".data, .str "hi".data)]])]) := by
  exact (C10_fingerprint_depends_only_on_view).1 _ _ rfl rfl rfl

/-! ## C6: request coalescing -/

/-- **C6 counterexample.** Two identical requests 1 s apart with a 10 s
upstream latency: the second arrives before the first response is cached,
so it misses and the upstream is invoked twice — not once as claimed. -/
theorem C6_counterexample :
    runTwoRequests 0 1 10 300 c6Req c6Body = .ok (2, c6Body, c6Body) ∧ (2 : Nat) ≠ 1 :=
  ⟨rfl, by decide⟩

/-- **C6 amended.** Coalescing works only after completion: when the second
identical request arrives after the first response has been cached and
within the TTL, it is answered from the cache with the identical body and
the upstream is invoked exactly once; a second request arriving while the
first is still in flight invokes the upstream again. -/
theorem C6_amended (t1 t2 lat ttl : Nat) (req body : Json) (h : Str)
    (hh : generateRequestHash req = .ok h)
    (h2 : t1 + lat ≤ t2) (h3 : t2 - (t1 + lat) < ttl) :
    runTwoRequests t1 t2 lat ttl req body = .ok (1, body, body) := by
  have httl : 0 < ttl := Nat.lt_of_le_of_lt (Nat.zero_le _) h3
  unfold runTwoRequests isDuplicateRequest cacheResponse
  rw [hh]
  simp only [exbind_ok, isDuplicateRequest.objLookup']
  simp only [Nat.not_lt.mpr h2, if_false, List.find?_nil, Option.isSome_none,
    Bool.false_eq_true, List.nil_append, List.filter_cons, List.filter_nil,
    Nat.sub_self]
  simp [isDuplicateRequest.objLookup', httl.ne', h3, exbind_ok]

/-- **C6 witness**: second request 1 s after the first completes, within a
300 s TTL — one upstream call, identical bodies. -/
theorem C6_amended_witness :
    runTwoRequests 0 11 10 300 c6Req c6Body = .ok (1, c6Body, c6Body) :=
  C6_amended 0 11 10 300 c6Req c6Body _ rfl (by decide) (by decide)

/-! ## C8: the tool-text extractor cascade -/

theorem infixOf_singleton_mem (c : Char) (s : Str) : infixOf [c] s = true ↔ c ∈ s := by
  induction s with
  | nil => simp [infixOf, findSub]
  | cons a rest ih =>
    by_cases h : c = a
    · subst h
      simp [infixOf, findSub, List.isPrefixOf]
    · simp only [infixOf, findSub, List.isPrefixOf, List.mem_cons]
      have hba : ¬ (c == a) = true := by simpa using h
      simp only [infixOf] at ih
      simp [hba, h, ih]

theorem mem_takeWhile_sat {α : Type} (p : α → Bool) :
    ∀ (l : List α) (a : α), a ∈ l.takeWhile p → p a = true := by
  intro l
  induction l with
  | nil => intro a ha; simp [List.takeWhile] at ha
  | cons x rest ih =>
    intro a ha
    simp only [List.takeWhile] at ha
    by_cases hx : p x = true
    · rw [hx] at ha
      simp only [List.mem_cons] at ha
      rcases ha with rfl | ha
      · exact hx
      · exact ih a ha
    · simp only [Bool.not_eq_true] at hx
      rw [hx] at ha
      simp at ha

theorem lastComponent_no_dot (s : Str) : '.' ∉ lastComponent s := by
  unfold lastComponent
  intro hc
  rw [List.mem_reverse] at hc
  have := mem_takeWhile_sat (· ≠ '.') s.reverse '.' hc
  simp at this

theorem dotStrip_no_dot (s : Str) : infixOf ".".data (dotStrip s) = false := by
  unfold dotStrip
  by_cases h : infixOf ".".data s = true
  · rw [if_pos h]
    rw [show (".".data : Str) = ['.'] from rfl]
    rw [← Bool.not_eq_true]
    intro htrue
    exact lastComponent_no_dot s ((infixOf_singleton_mem '.' _).mp htrue)
  · simp only [Bool.not_eq_true] at h
    rw [if_neg (by rw [h]; exact Bool.false_ne_true)]
    exact h

theorem foldl_preserve {α β : Type} (f : List α → β → List α) (P : α → Prop)
    (hf : ∀ acc b a, (∀ x ∈ acc, P x) → a ∈ f acc b → P a) :
    ∀ (l : List β) (acc : List α), (∀ x ∈ acc, P x) → ∀ a ∈ l.foldl f acc, P a := by
  intro l
  induction l with
  | nil => intro acc hacc a ha; exact hacc a ha
  | cons b rest ih =>
    intro acc hacc a ha
    exact ih (f acc b) (fun x hx => hf acc b x hacc hx) a ha

/-- A name produced with the dotted-prefix normalisation. -/
def nameDotFree (tc : ToolCall) : Prop :=
  ∀ s, tc.name = .str s → infixOf ".".data s = false

theorem d1Step_no_dot (acc : List ToolCall) (b : Str × Str) (a : ToolCall)
    (hacc : ∀ x ∈ acc, nameDotFree x) (ha : a ∈ d1Step acc b) : nameDotFree a := by
  unfold d1Step at ha
  by_cases hempty : (strip b.1).isEmpty = true
  · simp only [hempty, if_true] at ha
    exact hacc a ha
  · simp only [hempty, Bool.false_eq_true, if_false, List.mem_append] at ha
    rcases ha with ha | ha
    · exact hacc a ha
    · simp only [List.mem_singleton] at ha
      subst ha
      intro s hs
      simp only [Json.str.injEq] at hs
      rw [← hs]
      exact dotStrip_no_dot _

theorem d1Tools_no_dot (text : Str) : ∀ tc ∈ d1Tools text, nameDotFree tc :=
  foldl_preserve d1Step nameDotFree d1Step_no_dot _ [] (by simp)

theorem d2Step_no_dot (acc : List ToolCall) (b : Str × Str) (a : ToolCall)
    (hacc : ∀ x ∈ acc, nameDotFree x) (ha : a ∈ d2Step acc b) : nameDotFree a := by
  unfold d2Step at ha
  by_cases hempty : (strip b.1).isEmpty = true
  · simp only [hempty, if_true] at ha
    exact hacc a ha
  · simp only [hempty, Bool.false_eq_true, if_false, List.mem_append] at ha
    rcases ha with ha | ha
    · exact hacc a ha
    · simp only [List.mem_singleton] at ha
      subst ha
      intro s hs
      simp only [Json.str.injEq] at hs
      rw [← hs]
      exact dotStrip_no_dot _

theorem d2Tools_no_dot (text : Str) : ∀ tc ∈ d2Tools text, nameDotFree tc :=
  foldl_preserve d2Step nameDotFree d2Step_no_dot _ [] (by simp)

theorem d3Step_no_dot (acc : List ToolCall) (b : Str) (a : ToolCall)
    (hacc : ∀ x ∈ acc, nameDotFree x) (ha : a ∈ d3Step acc b) : nameDotFree a := by
  unfold d3Step at ha
  by_cases hempty : (strip b).isEmpty = true
  · simp only [hempty, if_true] at ha
    exact hacc a ha
  · simp only [hempty, Bool.false_eq_true, if_false] at ha
    cases hm : matchCall (strip b) with
    | none =>
      rw [hm] at ha
      exact hacc a ha
    | some nv =>
      obtain ⟨name, argsStr⟩ := nv
      rw [hm] at ha
      simp only [List.mem_append] at ha
      rcases ha with ha | ha
      · exact hacc a ha
      · simp only [List.mem_singleton] at ha
        subst ha
        intro s hs
        simp only [Json.str.injEq] at hs
        rw [← hs]
        exact dotStrip_no_dot _

theorem d3Tools_no_dot (text : Str) : ∀ tc ∈ d3Tools text, nameDotFree tc :=
  foldl_preserve d3Step nameDotFree d3Step_no_dot _ [] (by simp)

theorem d4Step_no_dot (acc : List ToolCall) (b : Str) (a : ToolCall)
    (hacc : ∀ x ∈ acc, nameDotFree x) (ha : a ∈ d4Step acc b) : nameDotFree a := by
  unfold d4Step at ha
  cases hj : jloads b with
  | none => rw [hj] at ha; exact hacc a ha
  | some v =>
    rw [hj] at ha
    cases v with
    | null => exact hacc a ha
    | bool bb => exact hacc a ha
    | num l => exact hacc a ha
    | str s => exact hacc a ha
    | arr xs => exact hacc a ha
    | obj kvs =>
      simp only [] at ha
      rcases hv : (objLookup kvs "tool_name".data).getD (.str []) with _ | bb | l | s | xs | kvs'
      all_goals rw [hv] at ha
      · -- null name is never truthy
        simp [truthy] at ha
        exact hacc a ha
      · -- bool name never appended
        cases bb with
        | false => simp [truthy] at ha; exact hacc a ha
        | true =>
          simp only [truthy, Bool.not_true, Bool.false_eq_true, if_false] at ha
          exact hacc a ha
      · -- numeric name never appended
        simp only [] at ha
        split at ha
        · exact hacc a ha
        · exact hacc a ha
      · -- string name gets the dotted prefix stripped
        simp only [] at ha
        split at ha
        · exact hacc a ha
        · simp only [List.mem_append, List.mem_singleton] at ha
          rcases ha with ha | ha
          · exact hacc a ha
          · subst ha
            intro s' hs
            simp only [Json.str.injEq] at hs
            rw [← hs]
            exact dotStrip_no_dot _
      · -- array name is kept but is never a string
        simp only [] at ha
        split at ha
        · exact hacc a ha
        · split at ha
          · exact hacc a ha
          · simp only [List.mem_append, List.mem_singleton] at ha
            rcases ha with ha | ha
            · exact hacc a ha
            · subst ha
              intro s' hs
              exact absurd hs (by simp)
      · -- object name is kept but is never a string
        simp only [] at ha
        split at ha
        · exact hacc a ha
        · split at ha
          · exact hacc a ha
          · simp only [List.mem_append, List.mem_singleton] at ha
            rcases ha with ha | ha
            · exact hacc a ha
            · subst ha
              intro s' hs
              exact absurd hs (by simp)

theorem d4Tools_no_dot (text : Str) : ∀ tc ∈ d4Tools text, nameDotFree tc :=
  foldl_preserve d4Step nameDotFree d4Step_no_dot _ [] (by simp)

/-- **C8 counterexample.** The dialect-5 pattern recovers the dotted name
`a.b` verbatim: no dotted-prefix stripping happens in that dialect, so the
claim's "in every dialect" fails. -/
theorem C8_counterexample :
    parseToolsFromText c8CounterText =
      [⟨.str "a.b".data, .obj [("x".data, .num "1".data)]⟩] ∧
    infixOf ".".data "a.b".data = true :=
  ⟨rfl, by decide⟩

/-- **C8 amended.** The extractor tries the five dialects in their fixed
order and returns the matches of the first dialect that yields any, never
mixing dialects; if nothing matches it returns empty.  Dialects 1-4
normalise recovered string names by stripping any dotted prefix; dialect 5
returns names verbatim. -/
theorem C8_amended (text : Str) :
    ((d1Tools text ≠ [] → parseToolsFromText text = d1Tools text) ∧
     (d1Tools text = [] → d2Tools text ≠ [] → parseToolsFromText text = d2Tools text) ∧
     (d1Tools text = [] → d2Tools text = [] → d3Tools text ≠ [] →
       parseToolsFromText text = d3Tools text) ∧
     (d1Tools text = [] → d2Tools text = [] → d3Tools text = [] → d4Tools text ≠ [] →
       parseToolsFromText text = d4Tools text) ∧
     (d1Tools text = [] → d2Tools text = [] → d3Tools text = [] → d4Tools text = [] →
       parseToolsFromText text = d5Tools text)) ∧
    (∀ tc, tc ∈ d1Tools text ∨ tc ∈ d2Tools text ∨ tc ∈ d3Tools text ∨ tc ∈ d4Tools text →
      nameDotFree tc) := by
  constructor
  · refine ⟨?_, ?_, ?_, ?_, ?_⟩ <;>
      · intros
        simp_all [parseToolsFromText]
  · intro tc htc
    rcases htc with h | h | h | h
    · exact d1Tools_no_dot text tc h
    · exact d2Tools_no_dot text tc h
    · exact d3Tools_no_dot text tc h
    · exact d4Tools_no_dot text tc h

/-- **C8 witness**: a dialect-1 text with the dotted name `a.b` is
normalised to `b` and returned; a text matching no dialect falls through to
the (empty) dialect-5 result. -/
theorem C8_amended_witness :
    parseToolsFromText "<function=a.b><parameter=x>1</parameter></function>".data =
      d1Tools "<function=a.b><parameter=x>1</parameter></function>".data ∧
    d1Tools "<function=a.b><parameter=x>1</parameter></function>".data =
      [⟨.str "b".data, .obj [("x".data, .num "1".data)]⟩] ∧
    parseToolsFromText "no tools here".data = d5Tools "no tools here".data ∧
    parseToolsFromText "no tools here".data = [] := by
  refine ⟨?_, rfl, ?_, rfl⟩
  · exact (C8_amended _).1.1 (List.cons_ne_nil _ _)
  · exact (C8_amended _).1.2.2.2.2 rfl rfl rfl rfl

/-- **C4 counterexample.** On the upstream id that is the literal `chat-`,
`LiteConverter.convert_response` emits the bare id `msg_` (fresh generation
is keyed on falsiness, not on the literal `chat-`), which fails the
`^msg_[a-f0-9]\x7b1,\x7d$` format; `AnthropicToOpenAIConverter.convert_response`
passes the upstream id through verbatim with no normalisation at all. -/
theorem C4_counterexample :
    respIdOf (liteConvertResponse cFresh c4CounterInput) = some (.str "msg_".data) ∧
    matchesMsgId "msg_".data = false ∧
    respIdOf (classConvertResponse c4CounterInput) = some (.str "chat-".data) ∧
    matchesMsgId "chat-".data = false :=
  ⟨rfl, by decide, rfl, by decide⟩

/-- **C4 amended.** When the upstream id field holds the string `s`,
`LiteConverter.convert_response` sets the id to `msg_` followed by the
first 12 characters of a fresh uuid hex when `s` is empty, and to `msg_`
followed by `s` with every occurrence of `chat-` removed otherwise;
`AnthropicToOpenAIConverter.convert_response` copies the upstream id
verbatim. -/
theorem C4_amended (fresh : Nat → Str) (resp r rc : Json) (s : Str)
    (hid : pyGetD resp "id".data (.str []) = .ok (.str s)) :
    (liteConvertResponse fresh resp = .ok r →
       getField r "id".data =
         some (.str (if s.isEmpty then "msg_".data ++ (fresh 0).take 12
                     else "msg_".data ++ removeAll "chat-".data s))) ∧
    (classConvertResponse resp = .ok rc → getField rc "id".data = some (.str s)) := by
  constructor
  · intro h
    unfold liteConvertResponse at h
    obtain ⟨choices, hc, h⟩ := exbind_ok_inv _ _ _ h
    split at h
    · simp at h
    · obtain ⟨oid, hoid, h⟩ := exbind_ok_inv _ _ _ h
      rw [hid] at hoid
      injection hoid with hoid
      subst hoid
      obtain ⟨rid, hrid, h⟩ := exbind_ok_inv _ _ _ h
      obtain ⟨model, hm, h⟩ := exbind_ok_inv _ _ _ h
      obtain ⟨usage, hu, h⟩ := exbind_ok_inv _ _ _ h
      obtain ⟨it, hit, h⟩ := exbind_ok_inv _ _ _ h
      obtain ⟨ot, hot, h⟩ := exbind_ok_inv _ _ _ h
      obtain ⟨choice, hch, h⟩ := exbind_ok_inv _ _ _ h
      obtain ⟨message, hme, h⟩ := exbind_ok_inv _ _ _ h
      obtain ⟨toolCalls, htc, h⟩ := exbind_ok_inv _ _ _ h
      obtain ⟨contentList, hcl, h⟩ := exbind_ok_inv _ _ _ h
      obtain ⟨finishReason, hfr, h⟩ := exbind_ok_inv _ _ _ h
      obtain ⟨stopReason, hsr, h⟩ := exbind_ok_inv _ _ _ h
      injection h with h
      subst h
      by_cases hs : s.isEmpty
      · simp only [truthy, hs, decide_not, Bool.not_true, Bool.false_eq_true,
          if_false] at hrid
        injection hrid with hrid
        subst hrid
        simp [getField, objLookup, hs]
      · simp only [truthy, hs, decide_not, Bool.not_false, if_true] at hrid
        injection hrid with hrid
        subst hrid
        simp [getField, objLookup, hs]
  · intro h
    unfold classConvertResponse at h
    obtain ⟨isErr, hie, h⟩ := exbind_ok_inv _ _ _ h
    split at h
    · simp at h
    · obtain ⟨idv, hidv, h⟩ := exbind_ok_inv _ _ _ h
      rw [hid] at hidv
      injection hidv with hidv
      subst hidv
      obtain ⟨model, hm, h⟩ := exbind_ok_inv _ _ _ h
      obtain ⟨usage, hu, h⟩ := exbind_ok_inv _ _ _ h
      obtain ⟨it, hit, h⟩ := exbind_ok_inv _ _ _ h
      obtain ⟨ot, hot, h⟩ := exbind_ok_inv _ _ _ h
      obtain ⟨choices, hch, h⟩ := exbind_ok_inv _ _ _ h
      repeat'
        first
        | (obtain ⟨y, hy, h⟩ := exbind_ok_inv _ _ _ h)
        | (simp only [pure_bind] at h)
        | (split at h)
        | (simp only [] at h)
      all_goals injection h with h
      all_goals subst h
      all_goals rfl

/-- **C4 witness**: on the upstream id `chat-42` the lite converter yields
`msg_42` and the class converter yields `chat-42` verbatim. -/
theorem C4_amended_witness :
    getField c4WitnessResp "id".data = some (.str "msg_42".data) ∧
    getField c4WitnessRespC "id".data = some (.str "chat-42".data) := by
  have h := C4_amended cFresh c4WitnessInput c4WitnessResp c4WitnessRespC
    "chat-42".data rfl
  exact ⟨by rw [h.1 rfl]; rfl, h.2 rfl⟩

/-- **C3 code bug.** (a) `LiteConverter.convert_response` on a reply whose
text embeds a dialect-1 tool call (finish_reason `stop`) returns `tool_use`
content but `stop_reason = end_turn`: line 221 unconditionally overwrites
the `tool_use` set in the tool branches with `stop_mapping.get(finish_reason)`.
(b) The SSE aggregation path on a structured tool-call reply with
`finish_reason: "tool_calls"` emits a `tool_use` `content_block_start` but a
`message_delta` whose stop reason is the unmapped literal `tool_calls`,
outside the Anthropic vocabulary. -/
theorem C3_code_bug :
    ((liteConvertResponse cFresh c3FailingInput).toOption.map contentHasToolUse =
       some true ∧
     respFieldOf (liteConvertResponse cFresh c3FailingInput) "stop_reason".data =
       some (.str "end_turn".data)) ∧
    ((generateFixedSSEStream cFresh none [c3AggLine]).any isToolUseStart = true ∧
     streamStopReason (generateFixedSSEStream cFresh none [c3AggLine]) =
       some (.str "tool_calls".data)) :=
  ⟨⟨rfl, rfl⟩, rfl, rfl⟩

theorem mirrorText_cons (om : Json) (oms : List Json) :
    mirrorText (om :: oms) =
      (match getField om "content".data with
       | some (.str s) => s
       | _ => []) ++ mirrorText oms := rfl

theorem concatAll_cons (s : Str) (rest : List Str) :
    concatAll (s :: rest) = s ++ concatAll rest := rfl

theorem itemsText_cons_inv (it : Json) (rest : List Json) (s : Str)
    (h : extractText.itemsText (it :: rest) = some s) :
    ∃ ikvs tx s', it = .obj ikvs ∧
      objLookup ikvs "type".data = some (.str "text".data) ∧
      objLookup ikvs "text".data = some (.str tx) ∧
      extractText.itemsText rest = some s' ∧ s = tx ++ s' := by
  cases it with
  | obj ikvs =>
    simp only [extractText.itemsText, getField] at h
    cases hty : objLookup ikvs "type".data with
    | none => rw [hty] at h; simp at h
    | some tv =>
      rw [hty] at h
      cases htx : objLookup ikvs "text".data with
      | none =>
        rw [htx] at h
        rcases tv with _ | _ | _ | t | _ | _ <;> simp at h
      | some xv =>
        rw [htx] at h
        rcases tv with _ | _ | _ | t | _ | _ <;> rcases xv with _ | _ | _ | tx | _ | _ <;>
          simp only [] at h <;> try exact Option.noConfusion h
        by_cases ht : t = "text".data
        · rw [if_pos ht] at h
          cases hr : extractText.itemsText rest with
          | none => rw [hr] at h; simp at h
          | some s' =>
            rw [hr] at h
            injection h with h
            exact ⟨ikvs, tx, s', rfl, ht ▸ hty, htx, rfl, h.symm⟩
        · rw [if_neg ht] at h
          simp at h
  | null => simp [extractText.itemsText, getField] at h
  | bool b => simp [extractText.itemsText, getField] at h
  | num l => simp [extractText.itemsText, getField] at h
  | str s2 => simp [extractText.itemsText, getField] at h
  | arr xs => simp [extractText.itemsText, getField] at h

theorem itemsText_convert : ∀ (items : List Json) (s : Str),
    extractText.itemsText items = some s →
    anyToolItem items = .ok false ∧ concatTextItems items = .ok s := by
  intro items
  induction items with
  | nil =>
    intro s h
    have h' : some ([] : Str) = some s := h
    injection h' with h'
    subst h'
    exact ⟨rfl, rfl⟩
  | cons it rest ih =>
    intro s h
    obtain ⟨ikvs, tx, s', hit, hty, htx, hrest, hs⟩ := itemsText_cons_inv it rest s h
    subst hit
    subst hs
    obtain ⟨iha, ihc⟩ := ih s' hrest
    constructor
    · simp only [anyToolItem, pyGet, pyGetD, hty, Option.getD_some, exbind_ok]
      rw [if_neg (by decide)]
      exact iha
    · simp only [concatTextItems, pyGet, pyGetD, hty, htx, Option.getD_some, exbind_ok]
      rw [if_pos (by decide)]
      rw [ihc]
      rfl

theorem liteConvertOneMessage_text (m : Json) (s : Str) (h : extractText m = some s) :
    ∃ om, liteConvertOneMessage m = .ok om ∧
      getField om "content".data = some (.str s) := by
  cases m with
  | obj kvs =>
    simp only [extractText, getField] at h
    cases hc0 : objLookup kvs "content".data with
    | none => rw [hc0] at h; simp at h
    | some cv =>
      rw [hc0] at h
      cases cv with
      | str cs =>
        simp only [] at h
        injection h with h
        subst h
        refine ⟨.obj [("role".data, liteOpenaiRole kvs), ("content".data, .str cs)], ?_, rfl⟩
        simp only [liteConvertOneMessage, pyGetD, hc0, Option.getD_some, exbind_ok]
        rfl
      | arr items =>
        simp only [] at h
        obtain ⟨hany, hconc⟩ := itemsText_convert items s h
        refine ⟨.obj [("role".data, liteOpenaiRole kvs), ("content".data, .str s)], ?_, rfl⟩
        simp only [liteConvertOneMessage, pyGetD, hc0, Option.getD_some, exbind_ok, hany]
        rw [if_neg (by simp), if_neg (by simp)]
        rw [hconc]
        simp only [exbind_ok]
        rfl
      | null => simp at h
      | bool b => simp at h
      | num l => simp at h
      | obj kvs2 => simp at h
  | null => simp [extractText, getField] at h
  | bool b => simp [extractText, getField] at h
  | num l => simp [extractText, getField] at h
  | str s2 => simp [extractText, getField] at h
  | arr xs => simp [extractText, getField] at h

theorem liteConvertMessages_texts : ∀ (msgs : List Json) (txts : List Str),
    reqTexts msgs = some txts →
    ∃ oms, liteConvertMessages msgs = .ok oms ∧ mirrorText oms = concatAll txts := by
  intro msgs
  induction msgs with
  | nil =>
    intro txts h
    have h' : some ([] : List Str) = some txts := h
    injection h' with h'
    subst h'
    exact ⟨[], rfl, rfl⟩
  | cons m rest ih =>
    intro txts h
    simp only [reqTexts] at h
    cases he : extractText m with
    | none =>
      rw [he] at h
      have h' : (none : Option (List Str)) = some txts := h
      simp at h'
    | some s =>
      rw [he] at h
      cases hr : reqTexts rest with
      | none =>
        rw [hr] at h
        have h' : (none : Option (List Str)) = some txts := h
        simp at h'
      | some rest' =>
        rw [hr] at h
        have h' : some (s :: rest') = some txts := h
        injection h' with h'
        subst h'
        obtain ⟨om, hom, homc⟩ := liteConvertOneMessage_text m s he
        obtain ⟨oms, homs, hmir⟩ := ih rest' hr
        refine ⟨om :: oms, ?_, ?_⟩
        · simp only [liteConvertMessages, hom, homs, exbind_ok]
        · rw [mirrorText_cons, homc, hmir, concatAll_cons]

theorem echoConvertAux (fresh : Nat → Str) (M : Str)
    (h : parseToolsFromText M = []) :
    (liteConvertResponse fresh (.obj
      [("id".data, .str "echo".data),
       ("choices".data, .arr
         [.obj
           [("message".data, .obj
             [("role".data, .str "assistant".data),
              ("content".data, .str M)]),
            ("finish_reason".data, .str "stop".data)]]),
       ("usage".data, .obj
         [("prompt_tokens".data, .num "0".data),
          ("completion_tokens".data, .num "0".data)])]) >>=
      fun resp => Except.ok (responseConcatText resp)) = .ok M := by
  cases M with
  | nil => rfl
  | cons c cs =>
    show ((if ¬ (parseToolsFromText (c :: cs)).isEmpty = true then _ else _) >>= _) >>= _ =
      Except.ok (c :: cs)
    rw [h]
    show Except.ok ((c :: cs) ++ []) = Except.ok (c :: cs)
    rw [List.append_nil]

/-- **C5 counterexample.** A request whose only text spells a dialect-1
tool invocation does not round-trip: the reply side re-parses the mirrored
text as a tool call, so the converted response has no text at all. -/
theorem C5_counterexample :
    roundTripEcho cFresh c5CounterMsgs = .ok [] ∧
    reqTexts c5CounterMsgs =
      some ["<function=f><parameter=k>v</parameter></function>".data] ∧
    ("<function=f><parameter=k>v</parameter></function>".data : Str) ≠ [] :=
  ⟨rfl, rfl, by decide⟩

/-- **C5 amended.** The round trip through a mirroring echo upstream
preserves the concatenated user text for every request carrying only text
parts whose concatenation does not itself parse as a textual tool call. -/
theorem C5_amended (fresh : Nat → Str) (msgs : List Json) (txts : List Str)
    (h1 : reqTexts msgs = some txts)
    (h2 : parseToolsFromText (concatAll txts) = []) :
    roundTripEcho fresh msgs = .ok (concatAll txts) := by
  obtain ⟨oms, hc, hm⟩ := liteConvertMessages_texts msgs txts h1
  unfold roundTripEcho
  rw [hc]
  simp only [exbind_ok]
  unfold echoUpstream
  rw [hm]
  exact echoConvertAux fresh (concatAll txts) h2

/-- **C5 witness**: the plain request `Say hi` round-trips to itself. -/
theorem C5_amended_witness :
    roundTripEcho cFresh c5WitnessMsgs = .ok "Say hi".data :=
  C5_amended cFresh c5WitnessMsgs ["Say hi".data] rfl rfl

theorem wfRun_append : ∀ (a : List SSEEvent) (o : Option Json) (b : List SSEEvent),
    wfRun o (a ++ b) = (wfRun o a).bind (fun o' => wfRun o' b) := by
  intro a
  induction a with
  | nil => intro o b; cases o <;> rfl
  | cons e rest ih =>
    intro o b
    cases o with
    | none =>
      cases e with
      | blockStart i bt =>
        simp only [List.cons_append, wfRun]
        exact ih _ _
      | messageStart => rfl
      | blockDelta j dt c => rfl
      | blockStop j => rfl
      | messageDelta sr => rfl
      | messageStop => rfl
      | errorEvt t => rfl
      | done => rfl
    | some i =>
      cases e with
      | blockDelta j dt c =>
        simp only [List.cons_append, wfRun]
        split
        · exact ih _ _
        · rfl
      | blockStop j =>
        simp only [List.cons_append, wfRun]
        split
        · exact ih _ _
        · rfl
      | blockStart i2 bt => rfl
      | messageStart => rfl
      | messageDelta sr => rfl
      | messageStop => rfl
      | errorEvt t => rfl
      | done => rfl

end Spec2Proof
